import Mathlib

/-!
Shallow embedding of the go-commons-pool `ObjectPool` (src/pool.go) together
with the collaborator contracts the pool consumes (pooled-item record, idle
deque, all-items map), modelled from the spec where their source is not part
of this repository snapshot.

Payloads are modelled as `Nat` identities (the pool compares payloads by
identity only).  The factory is a deterministic oracle keyed by payload
identity.  The embedding is single-threaded: each Go operation becomes a
function on an explicit pool state; the only concurrency-visible points that
claims mention (the blocking wait inside borrow, the second closed-flag read
inside return) are modelled by explicit oracle parameters.
-/

namespace CommonsPool

/-- Modelled from the spec: lifecycle states of a PooledItem (the pooled
object record is not under src/, only pool.go is). -/
inductive PState
  | IDLE
  | ALLOCATED
  | EVICTION
  | EVICTION_RETURN_TO_HEAD
  | VALIDATION
  | INVALID
  | ABANDONED
  | RETURNING
deriving DecidableEq, Repr

/-- Errors surfaced by pool operations: `IllegalStatusErr` and
`NoSuchElementErr` from pool.go, plus the distinct interruption signal the
idle deque delivers to waiters (modelled from the spec: the deque is not
under src/). -/
inductive PoolErr
  | illegalStatus (msg : String)
  | noSuchElement (msg : String)
  | interrupted
deriving DecidableEq, Repr

/-- Outcome of `borrowObject`.  `diverge` marks an execution that never
returns in the sequential model (an indefinite wait with no producer, or a
loop that exceeds its fuel); `panicked` marks a Go runtime panic (method
call on a nil factory interface). -/
inductive BorrowResult
  | ok (payload : Nat)
  | err (e : PoolErr)
  | diverge
  | panicked
deriving DecidableEq, Repr

/-- Modelled from the spec: how a wait on the idle deque ends in the
single-threaded model.  No producer can push an element while the caller is
blocked, so the wait ends either by the timeout elapsing
(`poll_front_timeout`) or by the interruption broadcast of
`interrupt_take_waiters`. -/
inductive WaitOutcome
  | timedOut
  | interrupted
deriving DecidableEq, Repr

/-- One primitive step of `doDestroy` (pool.go lines 181-193), in source
order. -/
inductive DEvent
  | toInvalid
  | removeFromIdle
  | removeFromAllObjects
  | factoryDestroy
  | incDestroyedCount
  | decCreateCount
deriving DecidableEq, Repr

/-- Deterministic oracle for the user-supplied factory, keyed by payload
identity.  `makeOk n` tells whether `MakeObject` succeeds when the next
fresh payload identity would be `n`; the other fields tell whether
activate/validate/passivate succeed on a given payload. -/
structure Factory where
  makeOk : Nat → Bool
  activateOk : Nat → Bool
  validateOk : Nat → Bool
  passivateOk : Nat → Bool

/-- The abandoned-object configuration (fields used by pool.go). -/
structure AbandonedCfg where
  removeAbandonedOnBorrow : Bool
deriving DecidableEq, Repr

/-- Pool configuration fields consumed by the modelled operations. -/
structure PoolConfig where
  maxTotal : Int
  maxIdle : Int
  minIdle : Int
  lifo : Bool
  blockWhenExhausted : Bool
  testOnCreate : Bool
  testOnBorrow : Bool
  testOnReturn : Bool
  abandonedConfig : Option AbandonedCfg
deriving DecidableEq, Repr

/-- Concurrency oracles: whether a borrower is blocked on the idle deque
(`HasTakeWaiters`), and which allocated payloads the abandonment reaper
would classify as timed out (time itself is not modelled). -/
structure World where
  hasTakeWaiters : Bool
  isAbandoned : Nat → Bool

/-- The pool state.  `allKeys` is the key set of the identity map
`allObjects`; `heap` holds every PooledItem record ever created (records
outlive their removal from the map, like Go heap objects); `idleObjects`
is the idle deque, front first.  `nextId` generates fresh payload
identities for `MakeObject`. -/
structure PoolState where
  closed : Bool
  idleObjects : List Nat
  allKeys : List Nat
  heap : List (Nat × PState)
  createCount : Int
  destroyedCount : Nat
  destroyedByBorrowValidationCount : Nat
  nextId : Nat
deriving DecidableEq, Repr

/-- The state of a fresh pool (`NewObjectPool`). -/
def initPool : PoolState :=
  { closed := false, idleObjects := [], allKeys := [], heap := [],
    createCount := 0, destroyedCount := 0,
    destroyedByBorrowValidationCount := 0, nextId := 0 }

/-- Read a pooled item's state field. -/
def lookupState (st : PoolState) (p : Nat) : Option PState :=
  st.heap.lookup p

/-- Write a pooled item's state field (mutation through the shared record,
visible from both the map and the deque). -/
def setState (p : Nat) (s : PState) (st : PoolState) : PoolState :=
  { st with heap := st.heap.map (fun e => if e.1 = p then (p, s) else e) }

/-- Modelled from the spec: `SyncIdentityMap.Get` returns the PooledItem
stored under the payload identity, or nothing. -/
def mapGet (st : PoolState) (p : Nat) : Option PState :=
  if p ∈ st.allKeys then lookupState st p else none

/-- Push a returned or created item onto the idle deque: front if LIFO,
back if FIFO. -/
def pushIdle (cfg : PoolConfig) (p : Nat) (st : PoolState) : PoolState :=
  if cfg.lifo then { st with idleObjects := p :: st.idleObjects }
  else { st with idleObjects := st.idleObjects ++ [p] }

/-- Modelled from the spec: `PooledObject.Allocate`.  It succeeds from
`IDLE` (to `ALLOCATED`) or from `EVICTION` (to `EVICTION_RETURN_TO_HEAD`,
still won by the borrower); from any other state it fails. -/
def allocate (p : Nat) (st : PoolState) : Bool × PoolState :=
  match lookupState st p with
  | some .IDLE => (true, setState p .ALLOCATED st)
  | some .EVICTION => (true, setState p .EVICTION_RETURN_TO_HEAD st)
  | _ => (false, st)

/-- Modelled from the spec: `PooledObject.Deallocate`, the
`RETURNING → IDLE` transition. -/
def deallocate (p : Nat) (st : PoolState) : Bool × PoolState :=
  match lookupState st p with
  | some .RETURNING => (true, setState p .IDLE st)
  | _ => (false, st)

/-- `create` (pool.go lines 153-175): increment the create counter; refuse
(and decrement) when the new count exceeds MaxTotal (when MaxTotal > -1) or
reaches the int32 sentinel; refuse (and decrement) when `MakeObject` fails;
otherwise store the fresh `IDLE` item in the all-items map. -/
def create (cfg : PoolConfig) (f : Factory) (st : PoolState) :
    Option Nat × PoolState :=
  if (cfg.maxTotal > -1 ∧ st.createCount + 1 > cfg.maxTotal) ∨
      st.createCount + 1 ≥ 2147483647 then
    (none, { st with createCount := st.createCount + 1 - 1 })
  else if ¬ f.makeOk st.nextId then
    (none, { st with createCount := st.createCount + 1 - 1 })
  else
    (some st.nextId,
      { st with createCount := st.createCount + 1,
                nextId := st.nextId + 1,
                allKeys := st.allKeys ++ [st.nextId],
                heap := st.heap ++ [(st.nextId, .IDLE)] })

/-- Semantics of one `doDestroy` step.  `factoryDestroy` invokes
`factory.DestroyObject`, whose error is swallowed; it has no pool-state
effect in the model. -/
def applyDEvent (p : Nat) (st : PoolState) : DEvent → PoolState
  | .toInvalid => setState p .INVALID st
  | .removeFromIdle => { st with idleObjects := st.idleObjects.erase p }
  | .removeFromAllObjects => { st with allKeys := st.allKeys.erase p }
  | .factoryDestroy => st
  | .incDestroyedCount => { st with destroyedCount := st.destroyedCount + 1 }
  | .decCreateCount => { st with createCount := st.createCount - 1 }

/-- The steps of `doDestroy` (pool.go lines 181-193) in source order:
invalidate, remove from the idle deque, remove from the all-items map,
factory destroy, bump the destroyed counter, drop the create counter. -/
def doDestroySteps : List DEvent :=
  [.toInvalid, .removeFromIdle, .removeFromAllObjects, .factoryDestroy,
   .incDestroyedCount, .decCreateCount]

/-- `doDestroy` is the sequential composition of its steps. -/
def doDestroy (p : Nat) (st : PoolState) : PoolState :=
  doDestroySteps.foldl (applyDEvent p) st

/-- `destroy` delegates to `doDestroy` (the lock-variant distinction has no
state effect in the model). -/
def destroy (p : Nat) (st : PoolState) : PoolState :=
  doDestroy p st

/-- `GetNumIdle`: size of the idle deque. -/
def GetNumIdle (st : PoolState) : Nat :=
  st.idleObjects.length

/-- `GetNumActive`: all-items map size minus idle deque size. -/
def GetNumActive (st : PoolState) : Int :=
  (st.allKeys.length : Int) - (st.idleObjects.length : Int)

/-- `Clear`'s loop: poll the idle deque and destroy until it is empty.
Each iteration shortens the deque by at least one, so the initial length
is enough fuel. -/
def clearLoop : Nat → PoolState → PoolState
  | 0, st => st
  | fuel + 1, st =>
    match st.idleObjects with
    | [] => st
    | p :: rest => clearLoop fuel (destroy p { st with idleObjects := rest })

/-- `Clear` (pool.go lines 414-421). -/
def clear (st : PoolState) : PoolState :=
  clearLoop st.idleObjects.length st

/-- `Close` (pool.go lines 450-470): idempotent; stops the evictor (not
modelled), sets the closed flag, clears the idle deque, and interrupts the
take waiters (visible to waiters through their `WaitOutcome`). -/
def close (st : PoolState) : PoolState :=
  if st.closed then st
  else clear { st with closed := true }

/-- `ensureIdle`'s creation loop: while the idle size is below the target,
create and push; stop at the first failed create.  Every successful
iteration grows the idle deque by exactly one, so the initial deficit is
enough fuel. -/
def ensureIdleLoop (cfg : PoolConfig) (f : Factory) (idleCount : Int) :
    Nat → PoolState → PoolState
  | 0, st => st
  | fuel + 1, st =>
    if (st.idleObjects.length : Int) < idleCount then
      match create cfg f st with
      | (none, st₁) => st₁
      | (some p, st₁) =>
        ensureIdleLoop cfg f idleCount fuel (pushIdle cfg p st₁)
    else st

/-- `ensureIdle` (pool.go lines 305-329): no-op when the target is below 1,
the pool is closed, or (unless `always`) no borrower is waiting; otherwise
top the idle deque up to the target and clear it if the pool closed
meanwhile. -/
def ensureIdle (cfg : PoolConfig) (f : Factory) (w : World)
    (idleCount : Int) (always : Bool) (st : PoolState) : PoolState :=
  if idleCount < 1 ∨ st.closed ∨ (¬ always ∧ ¬ w.hasTakeWaiters) then st
  else
    let st₁ := ensureIdleLoop cfg f idleCount
      (idleCount - st.idleObjects.length).toNat st
    if st₁.closed then clear st₁ else st₁

/-- `getMinIdle` (pool.go lines 524-530): MinIdle capped by MaxIdle. -/
def getMinIdle (cfg : PoolConfig) : Int :=
  if cfg.minIdle > cfg.maxIdle then cfg.maxIdle else cfg.minIdle

/-- `ensureMinIdle` (pool.go lines 620-622). -/
def ensureMinIdle (cfg : PoolConfig) (f : Factory) (w : World)
    (st : PoolState) : PoolState :=
  ensureIdle cfg f w (getMinIdle cfg) true st

/-- `preparePool` (pool.go lines 624-629). -/
def preparePool (cfg : PoolConfig) (f : Factory) (w : World)
    (st : PoolState) : PoolState :=
  if getMinIdle cfg < 1 then st
  else ensureMinIdle cfg f w st

/-- `InvalidateObject` (pool.go lines 430-447): unknown payloads fail with
`IllegalStatus` unless an abandoned configuration is set; known payloads
not already `INVALID` are destroyed; `ensureIdle(1, false)` runs in every
found case. -/
def invalidateObject (cfg : PoolConfig) (f : Factory) (w : World)
    (st : PoolState) (obj : Nat) : Option PoolErr × PoolState :=
  match mapGet st obj with
  | none =>
    if cfg.abandonedConfig.isSome then (none, st)
    else
      (some (.illegalStatus "Invalidated object not currently part of this pool"),
       st)
  | some s =>
    let st₁ := if s ≠ .INVALID then doDestroy obj st else st
    (none, ensureIdle cfg f w 1 false st₁)

/-- `removeAbandoned` (pool.go lines 127-151): snapshot the all-items map,
mark every `ALLOCATED` item the timeout oracle classifies as abandoned,
then invalidate each marked item. -/
def removeAbandoned (cfg : PoolConfig) (f : Factory) (w : World)
    (st : PoolState) : PoolState :=
  let remove := st.allKeys.filter
    (fun p => lookupState st p == some .ALLOCATED && w.isAbandoned p)
  let st₁ := remove.foldl (fun s p => setState p .ABANDONED s) st
  remove.foldl (fun s p => (invalidateObject cfg f w s p).2) st₁

/-- `ReturnObject` (pool.go lines 340-409) with the second closed-flag read
(line 400) made explicit: `closed2` is the value that read observes, which
sequentially equals the state's closed flag but may be true when `Close`
runs concurrently after the item was pushed. -/
def returnObjectAux (cfg : PoolConfig) (f : Factory) (w : World)
    (closed2 : Bool) (st : PoolState) (obj : Nat) :
    Option PoolErr × PoolState :=
  match mapGet st obj with
  | none =>
    if cfg.abandonedConfig.isSome then (none, st)
    else
      (some (.illegalStatus "Returned object not currently part of this pool"),
       st)
  | some s =>
    if s ≠ .ALLOCATED then
      (some (.illegalStatus
        "Object has already been returned to this pool or is invalid"), st)
    else
      let st₁ := setState obj .RETURNING st
      if cfg.testOnReturn ∧ ¬ f.validateOk obj then
        (none, ensureIdle cfg f w 1 false (destroy obj st₁))
      else if ¬ f.passivateOk obj then
        (none, ensureIdle cfg f w 1 false (destroy obj st₁))
      else
        match deallocate obj st₁ with
        | (false, st₂) =>
          (some (.illegalStatus
            "Object has already been returned to this pool or is invalid"), st₂)
        | (true, st₂) =>
          if st₂.closed ∨
              (cfg.maxIdle > -1 ∧ cfg.maxIdle ≤ (st₂.idleObjects.length : Int)) then
            (none, destroy obj st₂)
          else
            let st₃ := pushIdle cfg obj st₂
            if closed2 then (none, clear st₃) else (none, st₃)

/-- `ReturnObject` in the sequential model: both closed-flag reads observe
the state's closed flag. -/
def returnObject (cfg : PoolConfig) (f : Factory) (w : World)
    (st : PoolState) (obj : Nat) : Option PoolErr × PoolState :=
  returnObjectAux cfg f w st.closed st obj

/-- `addIdleObject` (pool.go lines 82-91): passivate (error ignored, no
state effect in the model) and push to the idle deque. -/
def addIdleObject (cfg : PoolConfig) (po : Option Nat) (st : PoolState) :
    PoolState :=
  match po with
  | none => st
  | some p => pushIdle cfg p st

/-- `AddObject` (pool.go lines 71-80): fails `IllegalStatus` when the pool
is closed or no factory is set; otherwise creates (possibly yielding
nothing) and adds the result to the idle deque, reporting success. -/
def addObject (cfg : PoolConfig) (fo : Option Factory) (st : PoolState) :
    Option PoolErr × PoolState :=
  if st.closed then (some (.illegalStatus "Pool not open"), st)
  else
    match fo with
    | none => (some (.illegalStatus "Cannot add objects without a factory."), st)
    | some f =>
      let r := create cfg f st
      (none, addIdleObject cfg r.1 r.2)

/-- `Prefill` (pool.go lines 631-635): `count` independent `AddObject`
calls, every return value discarded. -/
def prefill (cfg : PoolConfig) (fo : Option Factory) (count : Nat)
    (st : PoolState) : PoolState :=
  (List.range count).foldl (fun s _ => (addObject cfg fo s).2) st

/-- The tail of one borrow-loop iteration once an item `p` has been
acquired (polled, created, or received from a wait): allocate it, activate
it, and validate it when `TestOnBorrow` (or `TestOnCreate` on a fresh
item) demands; any failure either surfaces a `NoSuchElement` error (fresh
item) or re-enters the loop through the continuation `next`. -/
def afterAcquire (cfg : PoolConfig) (f : Factory) (created : Bool)
    (p : Nat) (st : PoolState)
    (next : PoolState → BorrowResult × PoolState) :
    BorrowResult × PoolState :=
  match allocate p st with
  | (false, st₁) => next st₁
  | (true, st₁) =>
    if ¬ f.activateOk p then
      let st₂ := destroy p st₁
      if created then (.err (.noSuchElement "Unable to activate object"), st₂)
      else next st₂
    else if cfg.testOnBorrow ∨ (created ∧ cfg.testOnCreate) then
      if ¬ f.validateOk p then
        let st₂ := destroy p st₁
        let st₃ := { st₂ with destroyedByBorrowValidationCount :=
          st₂.destroyedByBorrowValidationCount + 1 }
        if created then (.err (.noSuchElement "Unable to validate object"), st₃)
        else next st₃
      else (.ok p, st₁)
    else (.ok p, st₁)

/-- The borrow loop of `borrowObject` (pool.go lines 225-295).  `W` is the
maximum wait in milliseconds, `wait` the oracle for how a wait on the
empty deque would end.  The fuel bounds the number of iterations; running
out yields `diverge`, as does an indefinite `TakeFirst` whose wait ends
without item or interruption. -/
def borrowLoop (cfg : PoolConfig) (f : Factory) (W : Int)
    (wait : WaitOutcome) : Nat → PoolState → BorrowResult × PoolState
  | 0, st => (.diverge, st)
  | fuel + 1, st =>
    match st.idleObjects with
    | p :: rest =>
      afterAcquire cfg f false p { st with idleObjects := rest }
        (borrowLoop cfg f W wait fuel)
    | [] =>
      match create cfg f st with
      | (some p, st₁) =>
        afterAcquire cfg f true p st₁ (borrowLoop cfg f W wait fuel)
      | (none, st₁) =>
        if cfg.blockWhenExhausted then
          if W < 0 then
            match wait with
            | .interrupted => (.err .interrupted, st₁)
            | .timedOut => (.diverge, st₁)
          else
            match wait with
            | .interrupted => (.err .interrupted, st₁)
            | .timedOut =>
              (.err (.noSuchElement "Timeout waiting for idle object"), st₁)
        else (.err (.noSuchElement "Pool exhausted"), st₁)

/-- `borrowObject` (pool.go lines 205-299): fail `IllegalStatus` when the
pool is closed; reap abandoned items when the abandoned configuration asks
for it and the pool is near exhaustion; then run the borrow loop. -/
def borrowObject (cfg : PoolConfig) (f : Factory) (w : World)
    (st : PoolState) (W : Int) (wait : WaitOutcome) :
    BorrowResult × PoolState :=
  if st.closed then (.err (.illegalStatus "Pool not open"), st)
  else
    let st₁ :=
      match cfg.abandonedConfig with
      | some ac =>
        if ac.removeAbandonedOnBorrow ∧ (GetNumIdle st : Int) < 2 ∧
            GetNumActive st > cfg.maxTotal - 3 then
          removeAbandoned cfg f w st
        else st
      | none => st
    borrowLoop cfg f W wait (st₁.idleObjects.length + 2) st₁

/-- `borrowObject` translated under `this.factory == nil`: the closed check
still fires first, but every path that survives it reaches a method call on
the nil factory interface and panics — `create` calls `MakeObject` when the
idle deque is empty, and an item acquired from the deque reaches
`ActivateObject`.  The loop recurses over the idle deque as allocation
failures drop items. -/
def borrowNilLoop : List Nat → PoolState → BorrowResult × PoolState
  | [], st => (.panicked, { st with idleObjects := [] })
  | p :: rest, st =>
    match allocate p { st with idleObjects := rest } with
    | (false, st₁) => borrowNilLoop rest st₁
    | (true, st₁) => (.panicked, st₁)

/-- Entry of `borrowObject` with no factory set.  The abandoned-reap
prelude can itself panic when it finds an item to invalidate (the destroy
path calls `DestroyObject` on the nil factory); a reap that marks nothing
is harmless. -/
def borrowObjectNilFactory (cfg : PoolConfig) (w : World) (st : PoolState) :
    BorrowResult × PoolState :=
  if st.closed then (.err (.illegalStatus "Pool not open"), st)
  else
    let reap : Bool :=
      match cfg.abandonedConfig with
      | some ac =>
        ac.removeAbandonedOnBorrow && decide ((GetNumIdle st : Int) < 2) &&
          decide (GetNumActive st > cfg.maxTotal - 3)
      | none => false
    let marked := st.allKeys.filter
      (fun p => lookupState st p == some .ALLOCATED && w.isAbandoned p)
    if reap ∧ marked ≠ [] then (.panicked, st)
    else borrowNilLoop st.idleObjects st

/-- A public pool operation, as issued by some client thread in a
sequential interleaving.  The parameters carry the per-call oracle inputs:
the wait bound and wait outcome for a borrow, and the value of the second
closed-flag read for a return. -/
inductive PoolOp
  | borrowOp (W : Int) (wait : WaitOutcome)
  | returnOp (p : Nat) (closed2 : Bool)
  | invalidateOp (p : Nat)
  | addObjectOp
  | clearOp
  | closeOp
  | ensureMinIdleOp
  | preparePoolOp
  | prefillOp (count : Nat)

/-- Run one public operation, discarding its client-visible result. -/
def runOp (cfg : PoolConfig) (f : Factory) (w : World) (st : PoolState) :
    PoolOp → PoolState
  | .borrowOp W wait => (borrowObject cfg f w st W wait).2
  | .returnOp p closed2 => (returnObjectAux cfg f w closed2 st p).2
  | .invalidateOp p => (invalidateObject cfg f w st p).2
  | .addObjectOp => (addObject cfg (some f) st).2
  | .clearOp => clear st
  | .closeOp => close st
  | .ensureMinIdleOp => ensureMinIdle cfg f w st
  | .preparePoolOp => preparePool cfg f w st
  | .prefillOp count => prefill cfg (some f) count st

/-- Run a sequence of public operations from a given state. -/
def runOps (cfg : PoolConfig) (f : Factory) (w : World) :
    List PoolOp → PoolState → PoolState
  | [], st => st
  | op :: ops, st => runOps cfg f w ops (runOp cfg f w st op)

/-- A factory whose operations always succeed (used as concrete witness
input). -/
def fOk : Factory :=
  { makeOk := fun _ => true, activateOk := fun _ => true,
    validateOk := fun _ => true, passivateOk := fun _ => true }

/-- A quiet world: no blocked takers, no abandoned payloads. -/
def wQuiet : World :=
  { hasTakeWaiters := false, isAbandoned := fun _ => false }

/-- A concrete configuration close to the library defaults. -/
def cfgStd : PoolConfig :=
  { maxTotal := 8, maxIdle := 8, minIdle := 0, lifo := true,
    blockWhenExhausted := true, testOnCreate := false, testOnBorrow := false,
    testOnReturn := false, abandonedConfig := none }

/-- Length of the idle deque after `r` further returns that hit the
MaxIdle cap of `ReturnObject`: each return destroys when `maxIdle ≥ 0` and
the current size has reached it, and pushes otherwise. -/
def capAdd (maxIdle : Int) : Nat → Nat → Nat
  | i, 0 => i
  | i, r + 1 =>
    if maxIdle > -1 ∧ maxIdle ≤ (i : Int) then capAdd maxIdle i r
    else capAdd maxIdle (i + 1) r

/-- A pool holding exactly one allocated item with payload 0 (the state
after one successful borrow from a fresh pool). -/
def stOneAllocated : PoolState :=
  { closed := false, idleObjects := [], allKeys := [0],
    heap := [(0, .ALLOCATED)], createCount := 1, destroyedCount := 0,
    destroyedByBorrowValidationCount := 0, nextId := 1 }

/-- Whether a borrow outcome is an `IllegalStatus` failure. -/
def isIllegalStatusResult : BorrowResult → Bool
  | .err (.illegalStatus _) => true
  | _ => false

/-- The pool state after `n` borrows of the round-trip scenario: `n` folds
of a non-waiting `borrowObject` over a fresh pool. -/
def c8BorrowFold (cfg : PoolConfig) (f : Factory) (w : World) (n : Nat) :
    PoolState :=
  (List.range n).foldl (fun s _ => (borrowObject cfg f w s 0 .timedOut).2)
    initPool

/-- The round-trip scenario: `N` borrows from a fresh pool followed by `N`
returns of the borrowed payloads (which are 0..N-1 in borrow order). -/
def c8run (cfg : PoolConfig) (f : Factory) (w : World) (N : Nat) :
    PoolState :=
  (List.range N).foldl (fun s i => (returnObject cfg f w s i).2)
    (c8BorrowFold cfg f w N)

/-- The canonical state after `k` successful creating borrows from a fresh
pool: payloads 0..k-1 all allocated, idle deque empty. -/
def c8State (k : Nat) : PoolState :=
  { closed := false, idleObjects := [],
    allKeys := List.range k,
    heap := (List.range k).map (fun i => (i, PState.ALLOCATED)),
    createCount := (k : Int), destroyedCount := 0,
    destroyedByBorrowValidationCount := 0, nextId := k }

/-! Helper lemmas about the association-list heap. -/

theorem list_lookup_set_self (l : List (Nat × PState)) (p : Nat) (s : PState) :
    (l.map (fun e => if e.1 = p then (p, s) else e)).lookup p =
      (l.lookup p).map (fun _ => s) := by
  induction l with
  | nil => rfl
  | cons e rest ih =>
    obtain ⟨k, v⟩ := e
    rw [List.map_cons]
    by_cases h : k = p
    · subst h
      simp [List.lookup_cons]
    · rw [if_neg h]
      have hb : (p == k) = false := beq_eq_false_iff_ne.mpr (fun hc => h hc.symm)
      simp [List.lookup_cons, hb, ih]

theorem list_lookup_set_other (l : List (Nat × PState)) (p q : Nat)
    (s : PState) (h : q ≠ p) :
    (l.map (fun e => if e.1 = p then (p, s) else e)).lookup q = l.lookup q := by
  induction l with
  | nil => rfl
  | cons e rest ih =>
    obtain ⟨k, v⟩ := e
    rw [List.map_cons]
    by_cases he : k = p
    · subst he
      rw [if_pos rfl]
      have hb : (q == k) = false := beq_eq_false_iff_ne.mpr h
      simp [List.lookup_cons, hb, ih]
    · rw [if_neg he]
      simp [List.lookup_cons, ih]

theorem list_lookup_append_some (l₁ l₂ : List (Nat × PState)) (p : Nat)
    (v : PState) (h : l₁.lookup p = some v) :
    (l₁ ++ l₂).lookup p = some v := by
  induction l₁ with
  | nil => simp [List.lookup] at h
  | cons e rest ih =>
    obtain ⟨k, u⟩ := e
    rw [List.cons_append]
    cases hb : (p == k) with
    | true =>
      rw [List.lookup_cons, hb] at h
      simp at h
      simp [List.lookup_cons, hb, h]
    | false =>
      rw [List.lookup_cons, hb] at h
      simp only [List.lookup_cons, hb]
      exact ih h

theorem list_lookup_append_none (l₁ l₂ : List (Nat × PState)) (p : Nat)
    (h : l₁.lookup p = none) :
    (l₁ ++ l₂).lookup p = l₂.lookup p := by
  induction l₁ with
  | nil => rfl
  | cons e rest ih =>
    obtain ⟨k, u⟩ := e
    rw [List.cons_append]
    cases hb : (p == k) with
    | true =>
      rw [List.lookup_cons, hb] at h
      simp at h
    | false =>
      rw [List.lookup_cons, hb] at h
      simp only [List.lookup_cons, hb]
      exact ih h

theorem lookupState_setState_self (st : PoolState) (p : Nat) (s s₀ : PState)
    (h : lookupState st p = some s₀) :
    lookupState (setState p s st) p = some s := by
  unfold lookupState setState at *
  simp [list_lookup_set_self, h]

theorem lookupState_setState_other (st : PoolState) (p q : Nat) (s : PState)
    (h : q ≠ p) :
    lookupState (setState p s st) q = lookupState st q := by
  unfold lookupState setState
  exact list_lookup_set_other st.heap p q s h

theorem setState_closed (st : PoolState) (p : Nat) (s : PState) :
    (setState p s st).closed = st.closed := rfl

theorem setState_idle (st : PoolState) (p : Nat) (s : PState) :
    (setState p s st).idleObjects = st.idleObjects := rfl

theorem setState_allKeys (st : PoolState) (p : Nat) (s : PState) :
    (setState p s st).allKeys = st.allKeys := rfl

theorem lookupState_setState_self_map (st : PoolState) (p : Nat) (s : PState) :
    lookupState (setState p s st) p = (lookupState st p).map (fun _ => s) :=
  list_lookup_set_self st.heap p s

/-! The pool invariant backing claim C1 and its preservation by every
operation of the sequential machine. -/

/-- States reachable by the public operations satisfy: the all-items map
never outgrows the create counter; the create counter respects MaxTotal
(when set); every `IDLE` record is still in the map; every record was
made with a previously generated identity; the idle deque has no
duplicates and holds only `IDLE` items. -/
def poolInv (cfg : PoolConfig) (st : PoolState) : Prop :=
  ((st.allKeys.length : Int) ≤ st.createCount) ∧
  (0 ≤ cfg.maxTotal → st.createCount ≤ cfg.maxTotal) ∧
  (∀ p, lookupState st p = some .IDLE → p ∈ st.allKeys) ∧
  (∀ p s, lookupState st p = some s → p < st.nextId) ∧
  st.idleObjects.Nodup ∧
  (∀ p, p ∈ st.idleObjects → lookupState st p = some .IDLE)

theorem poolInv_init (cfg : PoolConfig) : poolInv cfg initPool := by
  refine ⟨by simp [initPool], by simp [initPool], ?_, ?_, by simp [initPool], ?_⟩
  · intro p h; simp [initPool, lookupState, List.lookup] at h
  · intro p s h; simp [initPool, lookupState, List.lookup] at h
  · intro p h; simp [initPool] at h

theorem poolInv_setState (cfg : PoolConfig) (st : PoolState) (p : Nat)
    (s : PState) (h : poolInv cfg st)
    (hks : s = .IDLE → p ∈ st.allKeys)
    (hid : p ∈ st.idleObjects → s = .IDLE) :
    poolInv cfg (setState p s st) := by
  obtain ⟨h1, h2, h3, h4, h5, h6⟩ := h
  refine ⟨h1, h2, ?_, ?_, h5, ?_⟩
  · intro q hq
    rw [setState_allKeys]
    by_cases hqp : q = p
    · subst hqp
      rw [lookupState_setState_self_map] at hq
      cases hl : lookupState st q with
      | none => rw [hl] at hq; simp at hq
      | some s₀ =>
        rw [hl] at hq; simp at hq
        exact hks hq
    · rw [lookupState_setState_other st p q s hqp] at hq
      exact h3 q hq
  · intro q s₁ hq
    by_cases hqp : q = p
    · subst hqp
      rw [lookupState_setState_self_map] at hq
      cases hl : lookupState st q with
      | none => rw [hl] at hq; simp at hq
      | some s₀ => exact h4 q s₀ hl
    · rw [lookupState_setState_other st p q s hqp] at hq
      exact h4 q s₁ hq
  · intro q hq
    rw [setState_idle] at hq
    by_cases hqp : q = p
    · subst hqp
      rw [lookupState_setState_self_map, h6 q hq]
      simp [hid hq]
    · rw [lookupState_setState_other st p q s hqp]
      exact h6 q hq

theorem doDestroy_eq (p : Nat) (st : PoolState) :
    doDestroy p st =
      { closed := st.closed,
        idleObjects := st.idleObjects.erase p,
        allKeys := st.allKeys.erase p,
        heap := (setState p .INVALID st).heap,
        createCount := st.createCount - 1,
        destroyedCount := st.destroyedCount + 1,
        destroyedByBorrowValidationCount := st.destroyedByBorrowValidationCount,
        nextId := st.nextId } := rfl

theorem poolInv_doDestroy (cfg : PoolConfig) (st : PoolState) (p : Nat)
    (h : poolInv cfg st) (hp : p ∈ st.allKeys) :
    poolInv cfg (doDestroy p st) := by
  obtain ⟨h1, h2, h3, h4, h5, h6⟩ := h
  rw [doDestroy_eq]
  have hlen : ((st.allKeys.erase p).length : Int) = (st.allKeys.length : Int) - 1 := by
    rw [List.length_erase_of_mem hp]
    have := List.length_pos.mpr (List.ne_nil_of_mem hp)
    omega
  refine ⟨?_, ?_, ?_, ?_, h5.erase p, ?_⟩
  · show ((st.allKeys.erase p).length : Int) ≤ st.createCount - 1
    rw [hlen]; omega
  · intro hm
    show st.createCount - 1 ≤ cfg.maxTotal
    have := h2 hm; omega
  · intro q hq
    simp only at hq ⊢
    by_cases hqp : q = p
    · subst hqp
      have := lookupState_setState_self_map st q .INVALID
      rw [show lookupState { closed := st.closed, idleObjects := st.idleObjects.erase q, allKeys := st.allKeys.erase q, heap := (setState q PState.INVALID st).heap, createCount := st.createCount - 1, destroyedCount := st.destroyedCount + 1, destroyedByBorrowValidationCount := st.destroyedByBorrowValidationCount, nextId := st.nextId } q = lookupState (setState q PState.INVALID st) q from rfl] at hq
      rw [this] at hq
      cases hl : lookupState st q with
      | none => rw [hl] at hq; simp at hq
      | some s₀ => rw [hl] at hq; simp at hq
    · have : lookupState (setState p PState.INVALID st) q = lookupState st q :=
        lookupState_setState_other st p q .INVALID hqp
      rw [show lookupState { closed := st.closed, idleObjects := st.idleObjects.erase p, allKeys := st.allKeys.erase p, heap := (setState p PState.INVALID st).heap, createCount := st.createCount - 1, destroyedCount := st.destroyedCount + 1, destroyedByBorrowValidationCount := st.destroyedByBorrowValidationCount, nextId := st.nextId } q = lookupState (setState p PState.INVALID st) q from rfl] at hq
      rw [this] at hq
      exact (List.mem_erase_of_ne hqp).mpr (h3 q hq)
  · intro q s₁ hq
    rw [show lookupState { closed := st.closed, idleObjects := st.idleObjects.erase p, allKeys := st.allKeys.erase p, heap := (setState p PState.INVALID st).heap, createCount := st.createCount - 1, destroyedCount := st.destroyedCount + 1, destroyedByBorrowValidationCount := st.destroyedByBorrowValidationCount, nextId := st.nextId } q = lookupState (setState p PState.INVALID st) q from rfl] at hq
    by_cases hqp : q = p
    · subst hqp
      rw [lookupState_setState_self_map] at hq
      cases hl : lookupState st q with
      | none => rw [hl] at hq; simp at hq
      | some s₀ => exact h4 q s₀ hl
    · rw [lookupState_setState_other st p q .INVALID hqp] at hq
      exact h4 q s₁ hq
  · intro q hq
    simp only at hq
    have hq' := h5.mem_erase_iff.mp hq
    rw [show lookupState { closed := st.closed, idleObjects := st.idleObjects.erase p, allKeys := st.allKeys.erase p, heap := (setState p PState.INVALID st).heap, createCount := st.createCount - 1, destroyedCount := st.destroyedCount + 1, destroyedByBorrowValidationCount := st.destroyedByBorrowValidationCount, nextId := st.nextId } q = lookupState (setState p PState.INVALID st) q from rfl]
    rw [lookupState_setState_other st p q .INVALID hq'.1]
    exact h6 q hq'.2

theorem poolInv_pushIdle (cfg : PoolConfig) (st : PoolState) (p : Nat)
    (h : poolInv cfg st) (hlook : lookupState st p = some .IDLE)
    (hnot : p ∉ st.idleObjects) :
    poolInv cfg (pushIdle cfg p st) := by
  obtain ⟨h1, h2, h3, h4, h5, h6⟩ := h
  unfold pushIdle
  split_ifs with hl
  · refine ⟨h1, h2, h3, h4, ?_, ?_⟩
    · exact List.nodup_cons.mpr ⟨hnot, h5⟩
    · intro q hq
      rcases List.mem_cons.mp hq with hq | hq
      · subst hq; exact hlook
      · exact h6 q hq
  · refine ⟨h1, h2, h3, h4, ?_, ?_⟩
    · rw [List.nodup_append]
      exact ⟨h5, List.nodup_singleton p, by
        intro a ha hb
        rw [List.mem_singleton] at hb
        subst hb; exact hnot ha⟩
    · intro q hq
      rcases List.mem_append.mp hq with hq | hq
      · exact h6 q hq
      · rw [List.mem_singleton] at hq
        subst hq; exact hlook

theorem create_eq (cfg : PoolConfig) (f : Factory) (st : PoolState) :
    create cfg f st =
      if (cfg.maxTotal > -1 ∧ st.createCount + 1 > cfg.maxTotal) ∨
          st.createCount + 1 ≥ 2147483647 then (none, st)
      else if ¬ f.makeOk st.nextId then (none, st)
      else (some st.nextId,
        { st with createCount := st.createCount + 1,
                  nextId := st.nextId + 1,
                  allKeys := st.allKeys ++ [st.nextId],
                  heap := st.heap ++ [(st.nextId, .IDLE)] }) := by
  unfold create
  simp only [Int.add_sub_cancel]

theorem create_none_state (cfg : PoolConfig) (f : Factory) (st : PoolState)
    (h : (create cfg f st).1 = none) : (create cfg f st).2 = st := by
  rw [create_eq] at h ⊢
  split_ifs at h ⊢ with h1 h2
  · rfl
  · rfl

theorem create_some_parts (cfg : PoolConfig) (f : Factory) (st : PoolState)
    (p : Nat) (h : (create cfg f st).1 = some p) :
    p = st.nextId ∧
    (create cfg f st).2 =
      { st with createCount := st.createCount + 1,
                nextId := st.nextId + 1,
                allKeys := st.allKeys ++ [st.nextId],
                heap := st.heap ++ [(st.nextId, .IDLE)] } ∧
    (0 ≤ cfg.maxTotal → st.createCount + 1 ≤ cfg.maxTotal) ∧
    st.createCount + 1 < 2147483647 := by
  rw [create_eq] at h ⊢
  split_ifs at h ⊢ with h1 h2
  push_neg at h1
  simp only at h
  injection h with h
  refine ⟨h.symm, rfl, ?_, ?_⟩
  · intro hm
    have := h1.1 (by omega)
    omega
  · have := h1.2
    omega

theorem poolInv_create (cfg : PoolConfig) (f : Factory) (st : PoolState)
    (h : poolInv cfg st) : poolInv cfg (create cfg f st).2 := by
  cases hc : (create cfg f st).1 with
  | none => rw [create_none_state cfg f st hc]; exact h
  | some p =>
    obtain ⟨hp, hst, hmax, _⟩ := create_some_parts cfg f st p hc
    obtain ⟨h1, h2, h3, h4, h5, h6⟩ := h
    rw [hst]
    refine ⟨?_, ?_, ?_, ?_, h5, ?_⟩
    · show ((st.allKeys ++ [st.nextId]).length : Int) ≤ st.createCount + 1
      rw [List.length_append, List.length_singleton]
      push_cast
      omega
    · intro hm
      show st.createCount + 1 ≤ cfg.maxTotal
      exact hmax hm
    · intro q hq
      show q ∈ st.allKeys ++ [st.nextId]
      replace hq : (st.heap ++ [(st.nextId, PState.IDLE)]).lookup q = some .IDLE := hq
      cases hl : st.heap.lookup q with
      | some s₀ =>
        rw [list_lookup_append_some st.heap _ q s₀ hl] at hq
        injection hq with hq
        subst hq
        exact List.mem_append_left _ (h3 q hl)
      | none =>
        rw [list_lookup_append_none st.heap _ q hl] at hq
        by_cases hqn : q = st.nextId
        · subst hqn
          exact List.mem_append_right _ (List.mem_singleton.mpr rfl)
        · have hb : (q == st.nextId) = false := beq_eq_false_iff_ne.mpr hqn
          rw [List.lookup_cons, hb] at hq
          simp [List.lookup] at hq
    · intro q s₁ hq
      show q < st.nextId + 1
      replace hq : (st.heap ++ [(st.nextId, PState.IDLE)]).lookup q = some s₁ := hq
      cases hl : st.heap.lookup q with
      | some s₀ =>
        have := h4 q s₀ hl
        omega
      | none =>
        rw [list_lookup_append_none st.heap _ q hl] at hq
        by_cases hqn : q = st.nextId
        · omega
        · have hb : (q == st.nextId) = false := beq_eq_false_iff_ne.mpr hqn
          rw [List.lookup_cons, hb] at hq
          simp [List.lookup] at hq
    · intro q hq
      replace hq : q ∈ st.idleObjects := hq
      show (st.heap ++ [(st.nextId, PState.IDLE)]).lookup q = some .IDLE
      exact list_lookup_append_some st.heap _ q _ (h6 q hq)

theorem create_some_fresh (cfg : PoolConfig) (f : Factory) (st : PoolState)
    (p : Nat) (hinv : poolInv cfg st) (h : (create cfg f st).1 = some p) :
    lookupState (create cfg f st).2 p = some .IDLE ∧
    p ∈ (create cfg f st).2.allKeys ∧
    p ∉ (create cfg f st).2.idleObjects := by
  obtain ⟨hp, hst, _, _⟩ := create_some_parts cfg f st p h
  obtain ⟨h1, h2, h3, h4, h5, h6⟩ := hinv
  have hfresh : st.heap.lookup st.nextId = none := by
    cases hl : st.heap.lookup st.nextId with
    | none => rfl
    | some s₀ => exact absurd (h4 st.nextId s₀ hl) (by omega)
  rw [hst, hp]
  refine ⟨?_, ?_, ?_⟩
  · show (st.heap ++ [(st.nextId, PState.IDLE)]).lookup st.nextId = some .IDLE
    rw [list_lookup_append_none st.heap _ st.nextId hfresh]
    simp [List.lookup_cons]
  · exact List.mem_append_right _ (List.mem_singleton.mpr rfl)
  · show st.nextId ∉ st.idleObjects
    intro hmem
    exact absurd (h4 st.nextId _ (h6 st.nextId hmem)) (by omega)

theorem mapGet_some (st : PoolState) (p : Nat) (s : PState)
    (h : mapGet st p = some s) :
    p ∈ st.allKeys ∧ lookupState st p = some s := by
  unfold mapGet at h
  split_ifs at h with hm
  exact ⟨hm, h⟩

theorem poolInv_pollFirst (cfg : PoolConfig) (st : PoolState) (p : Nat)
    (rest : List Nat) (h : poolInv cfg st)
    (hidle : st.idleObjects = p :: rest) :
    poolInv cfg { st with idleObjects := rest } ∧
    p ∈ st.allKeys ∧ lookupState st p = some .IDLE ∧ p ∉ rest := by
  obtain ⟨h1, h2, h3, h4, h5, h6⟩ := h
  rw [hidle] at h5 h6
  have hn := List.nodup_cons.mp h5
  have hlook : lookupState st p = some .IDLE := h6 p (List.mem_cons_self p rest)
  refine ⟨⟨h1, h2, h3, h4, hn.2, ?_⟩, h3 p hlook, hlook, hn.1⟩
  intro q hq
  exact h6 q (List.mem_cons_of_mem p hq)

theorem poolInv_clearLoop (cfg : PoolConfig) :
    ∀ (fuel : Nat) (st : PoolState), poolInv cfg st →
      poolInv cfg (clearLoop fuel st) := by
  intro fuel
  induction fuel with
  | zero => intro st h; exact h
  | succ n ih =>
    intro st h
    unfold clearLoop
    cases hidle : st.idleObjects with
    | nil => exact h
    | cons p rest =>
      obtain ⟨hinv', hmem, _, _⟩ := poolInv_pollFirst cfg st p rest h hidle
      exact ih _ (poolInv_doDestroy cfg _ p hinv' hmem)

theorem poolInv_clear (cfg : PoolConfig) (st : PoolState)
    (h : poolInv cfg st) : poolInv cfg (clear st) :=
  poolInv_clearLoop cfg _ st h

theorem poolInv_close (cfg : PoolConfig) (st : PoolState)
    (h : poolInv cfg st) : poolInv cfg (close st) := by
  unfold close
  split_ifs with hc
  · exact h
  · apply poolInv_clear
    obtain ⟨h1, h2, h3, h4, h5, h6⟩ := h
    exact ⟨h1, h2, h3, h4, h5, h6⟩

theorem poolInv_ensureIdleLoop (cfg : PoolConfig) (f : Factory)
    (idleCount : Int) :
    ∀ (fuel : Nat) (st : PoolState), poolInv cfg st →
      poolInv cfg (ensureIdleLoop cfg f idleCount fuel st) := by
  intro fuel
  induction fuel with
  | zero => intro st h; exact h
  | succ n ih =>
    intro st h
    unfold ensureIdleLoop
    split_ifs with hlt
    · cases hc : create cfg f st with
      | mk po st₁ =>
        cases po with
        | none =>
          show poolInv cfg st₁
          have h2 : st₁ = (create cfg f st).2 := by rw [hc]
          rw [h2]
          exact poolInv_create cfg f st h
        | some p =>
          show poolInv cfg (ensureIdleLoop cfg f idleCount n (pushIdle cfg p st₁))
          have h2 : st₁ = (create cfg f st).2 := by rw [hc]
          have hc1 : (create cfg f st).1 = some p := by rw [hc]
          have hfresh := create_some_fresh cfg f st p h hc1
          rw [← h2] at hfresh
          have hinv1 : poolInv cfg st₁ := by
            rw [h2]; exact poolInv_create cfg f st h
          exact ih _ (poolInv_pushIdle cfg st₁ p hinv1 hfresh.1 hfresh.2.2)
    · exact h

theorem poolInv_ensureIdle (cfg : PoolConfig) (f : Factory) (w : World)
    (idleCount : Int) (always : Bool) (st : PoolState)
    (h : poolInv cfg st) : poolInv cfg (ensureIdle cfg f w idleCount always st) := by
  unfold ensureIdle
  split_ifs with h1
  · exact h
  · dsimp only
    split_ifs with h2
    · exact poolInv_clear cfg _ (poolInv_ensureIdleLoop cfg f idleCount _ st h)
    · exact poolInv_ensureIdleLoop cfg f idleCount _ st h

theorem poolInv_invalidateObject (cfg : PoolConfig) (f : Factory) (w : World)
    (st : PoolState) (obj : Nat) (h : poolInv cfg st) :
    poolInv cfg (invalidateObject cfg f w st obj).2 := by
  unfold invalidateObject
  cases hg : mapGet st obj with
  | none =>
    split_ifs with h1
    · exact h
    · exact h
  | some s =>
    obtain ⟨hmem, _⟩ := mapGet_some st obj s hg
    show poolInv cfg (ensureIdle cfg f w 1 false
      (if s ≠ .INVALID then doDestroy obj st else st))
    apply poolInv_ensureIdle
    split_ifs with h1
    · exact poolInv_doDestroy cfg st obj h hmem
    · exact h

theorem poolInv_markFold (cfg : PoolConfig) :
    ∀ (l : List Nat) (st : PoolState), poolInv cfg st →
      (∀ q ∈ l, lookupState st q ≠ some .IDLE) →
      poolInv cfg (l.foldl (fun s p => setState p .ABANDONED s) st) := by
  intro l
  induction l with
  | nil => intro st h _; exact h
  | cons p rest ih =>
    intro st h hni
    rw [List.foldl_cons]
    have hpn := hni p (List.mem_cons_self p rest)
    have hinv' : poolInv cfg (setState p .ABANDONED st) := by
      apply poolInv_setState cfg st p .ABANDONED h
      · intro hc; cases hc
      · intro hmem
        exact absurd (h.2.2.2.2.2 p hmem) hpn
    apply ih _ hinv'
    intro q hq
    by_cases hqp : q = p
    · subst hqp
      rw [lookupState_setState_self_map]
      cases lookupState st q with
      | none => simp
      | some s₀ => simp
    · rw [lookupState_setState_other st p q .ABANDONED hqp]
      exact hni q (List.mem_cons_of_mem p hq)

theorem poolInv_invalidateFold (cfg : PoolConfig) (f : Factory) (w : World) :
    ∀ (l : List Nat) (st : PoolState), poolInv cfg st →
      poolInv cfg (l.foldl (fun s p => (invalidateObject cfg f w s p).2) st) := by
  intro l
  induction l with
  | nil => intro st h; exact h
  | cons p rest ih =>
    intro st h
    rw [List.foldl_cons]
    exact ih _ (poolInv_invalidateObject cfg f w st p h)

theorem poolInv_removeAbandoned (cfg : PoolConfig) (f : Factory) (w : World)
    (st : PoolState) (h : poolInv cfg st) :
    poolInv cfg (removeAbandoned cfg f w st) := by
  unfold removeAbandoned
  apply poolInv_invalidateFold
  apply poolInv_markFold cfg _ st h
  intro q hq
  have := List.of_mem_filter hq
  have hq' : lookupState st q = some .ALLOCATED := by
    have hb := (Bool.and_eq_true _ _).mp this
    exact eq_of_beq hb.1
  rw [hq']
  intro hc
  cases hc

theorem returnObjectAux_absent (cfg : PoolConfig) (f : Factory) (w : World)
    (closed2 : Bool) (st : PoolState) (obj : Nat)
    (hg : mapGet st obj = none) :
    returnObjectAux cfg f w closed2 st obj =
      if cfg.abandonedConfig.isSome then (none, st)
      else (some (.illegalStatus "Returned object not currently part of this pool"), st) := by
  unfold returnObjectAux
  rw [hg]

theorem returnObjectAux_notAllocated (cfg : PoolConfig) (f : Factory)
    (w : World) (closed2 : Bool) (st : PoolState) (obj : Nat) (s : PState)
    (hg : mapGet st obj = some s) (hs : s ≠ .ALLOCATED) :
    returnObjectAux cfg f w closed2 st obj =
      (some (.illegalStatus
        "Object has already been returned to this pool or is invalid"), st) := by
  unfold returnObjectAux
  rw [hg]
  dsimp only
  rw [if_pos hs]

theorem returnObjectAux_validateFail (cfg : PoolConfig) (f : Factory)
    (w : World) (closed2 : Bool) (st : PoolState) (obj : Nat)
    (hg : mapGet st obj = some .ALLOCATED)
    (ht : cfg.testOnReturn = true) (hv : f.validateOk obj = false) :
    returnObjectAux cfg f w closed2 st obj =
      (none, ensureIdle cfg f w 1 false
        (destroy obj (setState obj .RETURNING st))) := by
  unfold returnObjectAux
  rw [hg]
  dsimp only
  rw [if_neg (by simp : ¬ (PState.ALLOCATED ≠ PState.ALLOCATED))]
  rw [if_pos ⟨ht, by simp [hv]⟩]

theorem returnObjectAux_passivateFail (cfg : PoolConfig) (f : Factory)
    (w : World) (closed2 : Bool) (st : PoolState) (obj : Nat)
    (hg : mapGet st obj = some .ALLOCATED)
    (hnv : cfg.testOnReturn = true → f.validateOk obj = true)
    (hp : f.passivateOk obj = false) :
    returnObjectAux cfg f w closed2 st obj =
      (none, ensureIdle cfg f w 1 false
        (destroy obj (setState obj .RETURNING st))) := by
  unfold returnObjectAux
  rw [hg]
  dsimp only
  rw [if_neg (by simp : ¬ (PState.ALLOCATED ≠ PState.ALLOCATED))]
  rw [if_neg (fun hc => by rw [hnv hc.1] at hc; exact hc.2 rfl)]
  rw [if_pos (by simp [hp])]

theorem returnObjectAux_dealloc (cfg : PoolConfig) (f : Factory) (w : World)
    (closed2 : Bool) (st : PoolState) (obj : Nat)
    (hg : mapGet st obj = some .ALLOCATED)
    (hnv : cfg.testOnReturn = true → f.validateOk obj = true)
    (hp : f.passivateOk obj = true) :
    returnObjectAux cfg f w closed2 st obj =
      (if st.closed = true ∨ (cfg.maxIdle > -1 ∧
          cfg.maxIdle ≤ (st.idleObjects.length : Int)) then
        (none, destroy obj (setState obj .IDLE (setState obj .RETURNING st)))
      else if closed2 = true then
        (none, clear (pushIdle cfg obj (setState obj .IDLE (setState obj .RETURNING st))))
      else
        (none, pushIdle cfg obj (setState obj .IDLE (setState obj .RETURNING st)))) := by
  have hlook := (mapGet_some st obj _ hg).2
  have hlook1 : lookupState (setState obj .RETURNING st) obj =
      some .RETURNING := lookupState_setState_self st obj _ _ hlook
  have hde : deallocate obj (setState obj .RETURNING st) =
      (true, setState obj .IDLE (setState obj .RETURNING st)) := by
    unfold deallocate
    rw [hlook1]
  unfold returnObjectAux
  rw [hg]
  dsimp only
  rw [if_neg (by simp : ¬ (PState.ALLOCATED ≠ PState.ALLOCATED))]
  rw [if_neg (fun hc => by rw [hnv hc.1] at hc; exact hc.2 rfl)]
  rw [if_neg (fun hc => hc hp)]
  rw [hde]
  rfl

theorem poolInv_returnObjectAux (cfg : PoolConfig) (f : Factory) (w : World)
    (closed2 : Bool) (st : PoolState) (obj : Nat) (h : poolInv cfg st) :
    poolInv cfg (returnObjectAux cfg f w closed2 st obj).2 := by
  cases hg : mapGet st obj with
  | none =>
    rw [returnObjectAux_absent cfg f w closed2 st obj hg]
    split_ifs with h1
    · exact h
    · exact h
  | some s =>
    obtain ⟨hmem, hlook⟩ := mapGet_some st obj s hg
    by_cases hs : s = PState.ALLOCATED
    · subst hs
      have hnotidle : obj ∉ st.idleObjects := by
        intro hmem'
        rw [h.2.2.2.2.2 obj hmem'] at hlook
        cases hlook
      have hinv1 : poolInv cfg (setState obj .RETURNING st) := by
        apply poolInv_setState cfg st obj .RETURNING h
        · intro hc; cases hc
        · intro hmem'; exact absurd hmem' hnotidle
      have hdestroyInv : poolInv cfg
          (ensureIdle cfg f w 1 false (destroy obj (setState obj .RETURNING st))) := by
        apply poolInv_ensureIdle
        exact poolInv_doDestroy cfg _ obj hinv1 hmem
      by_cases hva : cfg.testOnReturn = true ∧ f.validateOk obj = false
      · rw [returnObjectAux_validateFail cfg f w closed2 st obj hg hva.1 hva.2]
        exact hdestroyInv
      · have hnv : cfg.testOnReturn = true → f.validateOk obj = true := by
          intro ht
          by_cases hv : f.validateOk obj = true
          · exact hv
          · exact absurd ⟨ht, by simpa using hv⟩ hva
        by_cases hp : f.passivateOk obj = true
        · rw [returnObjectAux_dealloc cfg f w closed2 st obj hg hnv hp]
          have hinv2 : poolInv cfg (setState obj .IDLE (setState obj .RETURNING st)) := by
            apply poolInv_setState cfg _ obj .IDLE hinv1
            · intro _
              show obj ∈ st.allKeys
              exact hmem
            · intro _; rfl
          have hlook2 : lookupState (setState obj .IDLE (setState obj .RETURNING st)) obj =
              some .IDLE := lookupState_setState_self _ obj _ _
                (lookupState_setState_self st obj _ _ hlook)
          split_ifs with hcap hc2
          · exact poolInv_doDestroy cfg _ obj hinv2 hmem
          · apply poolInv_clear
            exact poolInv_pushIdle cfg _ obj hinv2 hlook2 hnotidle
          · exact poolInv_pushIdle cfg _ obj hinv2 hlook2 hnotidle
        · rw [returnObjectAux_passivateFail cfg f w closed2 st obj hg hnv
            (by simpa using hp)]
          exact hdestroyInv
    · rw [returnObjectAux_notAllocated cfg f w closed2 st obj s hg hs]
      exact h

theorem allocate_of_idle (p : Nat) (st : PoolState)
    (h : lookupState st p = some .IDLE) :
    allocate p st = (true, setState p .ALLOCATED st) := by
  unfold allocate
  rw [h]

theorem poolInv_setDbv (cfg : PoolConfig) (st : PoolState) (n : Nat)
    (h : poolInv cfg st) :
    poolInv cfg { st with destroyedByBorrowValidationCount := n } := by
  obtain ⟨h1, h2, h3, h4, h5, h6⟩ := h
  exact ⟨h1, h2, h3, h4, h5, h6⟩

theorem poolInv_afterAcquire (cfg : PoolConfig) (f : Factory) (created : Bool)
    (p : Nat) (st : PoolState) (next : PoolState → BorrowResult × PoolState)
    (h : poolInv cfg st) (hlook : lookupState st p = some .IDLE)
    (hmem : p ∈ st.allKeys) (hnotidle : p ∉ st.idleObjects)
    (hnext : ∀ s, poolInv cfg s → poolInv cfg (next s).2) :
    poolInv cfg (afterAcquire cfg f created p st next).2 := by
  unfold afterAcquire
  rw [allocate_of_idle p st hlook]
  dsimp only
  have hinv1 : poolInv cfg (setState p .ALLOCATED st) := by
    apply poolInv_setState cfg st p .ALLOCATED h
    · intro hc; cases hc
    · intro hm; exact absurd hm hnotidle
  have hmem1 : p ∈ (setState p .ALLOCATED st).allKeys := hmem
  have hinv2 : poolInv cfg (destroy p (setState p .ALLOCATED st)) :=
    poolInv_doDestroy cfg _ p hinv1 hmem1
  by_cases hact : f.activateOk p = true
  · rw [if_neg (fun hc => hc hact)]
    by_cases htest : cfg.testOnBorrow = true ∨ (created = true ∧ cfg.testOnCreate = true)
    · rw [if_pos htest]
      by_cases hval : f.validateOk p = true
      · rw [if_neg (fun hc => hc hval)]
        exact hinv1
      · rw [if_pos (by simpa using hval)]
        have hinv3 : poolInv cfg
            { destroy p (setState p .ALLOCATED st) with
              destroyedByBorrowValidationCount :=
                (destroy p (setState p .ALLOCATED st)).destroyedByBorrowValidationCount + 1 } :=
          poolInv_setDbv cfg _ _ hinv2
        cases created with
        | true => exact hinv3
        | false => exact hnext _ hinv3
    · rw [if_neg htest]
      exact hinv1
  · rw [if_pos (by simpa using hact)]
    cases created with
    | true => exact hinv2
    | false => exact hnext _ hinv2

theorem poolInv_borrowLoop (cfg : PoolConfig) (f : Factory) (W : Int)
    (wait : WaitOutcome) :
    ∀ (fuel : Nat) (st : PoolState), poolInv cfg st →
      poolInv cfg (borrowLoop cfg f W wait fuel st).2 := by
  intro fuel
  induction fuel with
  | zero => intro st h; exact h
  | succ n ih =>
    intro st h
    unfold borrowLoop
    cases hidle : st.idleObjects with
    | cons p rest =>
      obtain ⟨hinv', hmem, hlook, hnot⟩ := poolInv_pollFirst cfg st p rest h hidle
      apply poolInv_afterAcquire cfg f false p _ _ hinv' hlook hmem
          (by show p ∉ rest; exact hnot)
      intro s hs
      exact ih s hs
    | nil =>
      cases hc : create cfg f st with
      | mk po st₁ =>
        have h2 : st₁ = (create cfg f st).2 := by rw [hc]
        have hinv1 : poolInv cfg st₁ := by
          rw [h2]; exact poolInv_create cfg f st h
        cases po with
        | some p =>
          show poolInv cfg (afterAcquire cfg f true p st₁ (borrowLoop cfg f W wait n)).2
          have hc1 : (create cfg f st).1 = some p := by rw [hc]
          have hfresh := create_some_fresh cfg f st p h hc1
          rw [← h2] at hfresh
          apply poolInv_afterAcquire cfg f true p st₁ _ hinv1 hfresh.1 hfresh.2.1 hfresh.2.2
          intro s hs
          exact ih s hs
        | none =>
          dsimp only
          split_ifs with hb hw
          · cases wait with
            | interrupted => exact hinv1
            | timedOut => exact hinv1
          · cases wait with
            | interrupted => exact hinv1
            | timedOut => exact hinv1
          · exact hinv1

theorem poolInv_borrowObject (cfg : PoolConfig) (f : Factory) (w : World)
    (st : PoolState) (W : Int) (wait : WaitOutcome) (h : poolInv cfg st) :
    poolInv cfg (borrowObject cfg f w st W wait).2 := by
  unfold borrowObject
  split_ifs with hc
  · exact h
  · dsimp only
    apply poolInv_borrowLoop
    cases cfg.abandonedConfig with
    | none => exact h
    | some ac =>
      dsimp only
      split_ifs with hr
      · exact poolInv_removeAbandoned cfg f w st h
      · exact h

theorem poolInv_addObject (cfg : PoolConfig) (fo : Option Factory)
    (st : PoolState) (h : poolInv cfg st) :
    poolInv cfg (addObject cfg fo st).2 := by
  unfold addObject
  split_ifs with hc
  · exact h
  · cases fo with
    | none => exact h
    | some f =>
      show poolInv cfg (addIdleObject cfg (create cfg f st).1 (create cfg f st).2)
      cases hcr : (create cfg f st).1 with
      | none =>
        show poolInv cfg (create cfg f st).2
        exact poolInv_create cfg f st h
      | some p =>
        show poolInv cfg (pushIdle cfg p (create cfg f st).2)
        have hfresh := create_some_fresh cfg f st p h hcr
        exact poolInv_pushIdle cfg _ p (poolInv_create cfg f st h) hfresh.1 hfresh.2.2

theorem poolInv_prefill (cfg : PoolConfig) (fo : Option Factory) :
    ∀ (count : Nat) (st : PoolState), poolInv cfg st →
      poolInv cfg (prefill cfg fo count st) := by
  have hgen : ∀ (l : List Nat) (st : PoolState), poolInv cfg st →
      poolInv cfg (l.foldl (fun s _ => (addObject cfg fo s).2) st) := by
    intro l
    induction l with
    | nil => intro st h; exact h
    | cons a rest ih =>
      intro st h
      rw [List.foldl_cons]
      exact ih _ (poolInv_addObject cfg fo st h)
  intro count st h
  exact hgen _ st h

theorem poolInv_runOp (cfg : PoolConfig) (f : Factory) (w : World)
    (st : PoolState) (op : PoolOp) (h : poolInv cfg st) :
    poolInv cfg (runOp cfg f w st op) := by
  cases op with
  | borrowOp W wait => exact poolInv_borrowObject cfg f w st W wait h
  | returnOp p closed2 => exact poolInv_returnObjectAux cfg f w closed2 st p h
  | invalidateOp p => exact poolInv_invalidateObject cfg f w st p h
  | addObjectOp => exact poolInv_addObject cfg (some f) st h
  | clearOp => exact poolInv_clear cfg st h
  | closeOp => exact poolInv_close cfg st h
  | ensureMinIdleOp => exact poolInv_ensureIdle cfg f w _ _ st h
  | preparePoolOp =>
    show poolInv cfg (preparePool cfg f w st)
    unfold preparePool
    split_ifs with hm
    · exact h
    · exact poolInv_ensureIdle cfg f w _ _ st h
  | prefillOp count => exact poolInv_prefill cfg (some f) count st h

theorem poolInv_runOps (cfg : PoolConfig) (f : Factory) (w : World) :
    ∀ (ops : List PoolOp) (st : PoolState), poolInv cfg st →
      poolInv cfg (runOps cfg f w ops st) := by
  intro ops
  induction ops with
  | nil => intro st h; exact h
  | cons op rest ih =>
    intro st h
    exact ih _ (poolInv_runOp cfg f w st op h)

/-! Claim theorems. -/

/-- Claim C1: for every configuration with MaxTotal ≥ 0, `create`
increments the create counter and, when the new count would exceed
MaxTotal or reach the int32 sentinel, undoes the increment and returns no
object (net state unchanged); a `MakeObject` failure likewise undoes the
increment; on success the counter grew by one and stays within MaxTotal.
Consequently after any sequence of public operations from a fresh pool,
`num_active + num_idle ≤ create_count ≤ MaxTotal`. -/
theorem c1_create_accounting_and_invariant (cfg : PoolConfig) (f : Factory)
    (w : World) (hMT : 0 ≤ cfg.maxTotal) :
    (∀ st : PoolState,
      ((cfg.maxTotal > -1 ∧ st.createCount + 1 > cfg.maxTotal) ∨
          st.createCount + 1 ≥ 2147483647 →
        (create cfg f st).1 = none ∧ (create cfg f st).2 = st) ∧
      (f.makeOk st.nextId = false →
        (create cfg f st).1 = none ∧ (create cfg f st).2 = st) ∧
      (∀ p, (create cfg f st).1 = some p →
        (create cfg f st).2.createCount = st.createCount + 1 ∧
        (create cfg f st).2.createCount ≤ cfg.maxTotal)) ∧
    (∀ ops : List PoolOp,
      GetNumActive (runOps cfg f w ops initPool) +
          (GetNumIdle (runOps cfg f w ops initPool) : Int) ≤
        (runOps cfg f w ops initPool).createCount ∧
      (runOps cfg f w ops initPool).createCount ≤ cfg.maxTotal) := by
  constructor
  · intro st
    refine ⟨?_, ?_, ?_⟩
    · intro hguard
      rw [create_eq, if_pos hguard]
      exact ⟨rfl, rfl⟩
    · intro hmk
      rw [create_eq]
      by_cases h1 : (cfg.maxTotal > -1 ∧ st.createCount + 1 > cfg.maxTotal) ∨
          st.createCount + 1 ≥ 2147483647
      · rw [if_pos h1]; exact ⟨rfl, rfl⟩
      · rw [if_neg h1, if_pos (by simp [hmk])]
        exact ⟨rfl, rfl⟩
    · intro p hp
      obtain ⟨_, hst, hmax, _⟩ := create_some_parts cfg f st p hp
      rw [hst]
      exact ⟨rfl, hmax hMT⟩
  · intro ops
    have hinv := poolInv_runOps cfg f w ops initPool (poolInv_init cfg)
    obtain ⟨h1, h2, _, _, _, _⟩ := hinv
    refine ⟨?_, h2 hMT⟩
    unfold GetNumActive GetNumIdle
    omega

/-- Witness for C1 at a concrete configuration and operation sequence. -/
theorem c1_witness :
    0 ≤ cfgStd.maxTotal ∧
    (GetNumActive (runOps cfgStd fOk wQuiet
        [PoolOp.borrowOp (-1) .interrupted, PoolOp.borrowOp (-1) .interrupted,
         PoolOp.returnOp 0 false, PoolOp.addObjectOp, PoolOp.closeOp] initPool) +
        (GetNumIdle (runOps cfgStd fOk wQuiet
          [PoolOp.borrowOp (-1) .interrupted, PoolOp.borrowOp (-1) .interrupted,
           PoolOp.returnOp 0 false, PoolOp.addObjectOp, PoolOp.closeOp] initPool) : Int) ≤
      (runOps cfgStd fOk wQuiet
        [PoolOp.borrowOp (-1) .interrupted, PoolOp.borrowOp (-1) .interrupted,
         PoolOp.returnOp 0 false, PoolOp.addObjectOp, PoolOp.closeOp] initPool).createCount ∧
     (runOps cfgStd fOk wQuiet
        [PoolOp.borrowOp (-1) .interrupted, PoolOp.borrowOp (-1) .interrupted,
         PoolOp.returnOp 0 false, PoolOp.addObjectOp, PoolOp.closeOp] initPool).createCount ≤
       cfgStd.maxTotal) :=
  ⟨by decide,
   (c1_create_accounting_and_invariant cfgStd fOk wQuiet (by decide)).2
     [PoolOp.borrowOp (-1) .interrupted, PoolOp.borrowOp (-1) .interrupted,
      PoolOp.returnOp 0 false, PoolOp.addObjectOp, PoolOp.closeOp]⟩

/-- Claim C7: `doDestroy` performs, in this order: transition to INVALID,
removal from the idle deque, removal from the all-items map, the factory
destroy call, destroyed-counter increment, create-counter decrement; in
particular both removals precede the factory destroy call. -/
theorem c7_destroy_order :
    doDestroySteps =
      [DEvent.toInvalid, DEvent.removeFromIdle, DEvent.removeFromAllObjects,
       DEvent.factoryDestroy, DEvent.incDestroyedCount, DEvent.decCreateCount] ∧
    (∀ (p : Nat) (st : PoolState),
      doDestroy p st = doDestroySteps.foldl (applyDEvent p) st ∧
      destroy p st = doDestroy p st) ∧
    doDestroySteps.indexOf DEvent.removeFromIdle <
      doDestroySteps.indexOf DEvent.factoryDestroy ∧
    doDestroySteps.indexOf DEvent.removeFromAllObjects <
      doDestroySteps.indexOf DEvent.factoryDestroy ∧
    doDestroySteps.indexOf DEvent.toInvalid <
      doDestroySteps.indexOf DEvent.removeFromIdle ∧
    doDestroySteps.indexOf DEvent.factoryDestroy <
      doDestroySteps.indexOf DEvent.incDestroyedCount ∧
    doDestroySteps.indexOf DEvent.incDestroyedCount <
      doDestroySteps.indexOf DEvent.decCreateCount :=
  ⟨rfl, fun _ _ => ⟨rfl, rfl⟩, by decide, by decide, by decide, by decide,
   by decide⟩

/-- Claim C9: the min-idle target is min(MinIdle, MaxIdle); with
MaxIdle = -1 and a non-negative MinIdle the target is -1, and with
MaxIdle = -1 `ensureMinIdle` and `preparePool` leave the pool untouched
regardless of MinIdle. -/
theorem c9_min_idle_target (cfg : PoolConfig) (f : Factory) (w : World)
    (st : PoolState) :
    getMinIdle cfg = min cfg.minIdle cfg.maxIdle ∧
    (cfg.maxIdle = -1 → 0 ≤ cfg.minIdle → getMinIdle cfg = -1) ∧
    (cfg.maxIdle = -1 →
      ensureMinIdle cfg f w st = st ∧ preparePool cfg f w st = st) := by
  have hmin : getMinIdle cfg = min cfg.minIdle cfg.maxIdle := by
    unfold getMinIdle
    rw [min_def]
    split_ifs with h1 h2
    · omega
    · rfl
    · rfl
    · omega
  refine ⟨hmin, ?_, ?_⟩
  · intro hmx hmn
    rw [hmin, hmx]
    omega
  · intro hmx
    have hlt : getMinIdle cfg < 1 := by
      rw [hmin, hmx]
      rcases le_or_lt cfg.minIdle (-1) with h | h
      · omega
      · omega
    constructor
    · unfold ensureMinIdle ensureIdle
      rw [if_pos (Or.inl hlt)]
    · unfold preparePool
      rw [if_pos hlt]

/-- Witness for C9 at a concrete configuration with MaxIdle = -1 and
MinIdle = 5. -/
theorem c9_witness :
    getMinIdle { cfgStd with maxIdle := -1, minIdle := 5 } =
      min 5 (-1) ∧
    getMinIdle { cfgStd with maxIdle := -1, minIdle := 5 } = -1 ∧
    ensureMinIdle { cfgStd with maxIdle := -1, minIdle := 5 } fOk wQuiet initPool =
      initPool ∧
    preparePool { cfgStd with maxIdle := -1, minIdle := 5 } fOk wQuiet initPool =
      initPool := by
  have h := c9_min_idle_target { cfgStd with maxIdle := -1, minIdle := 5 }
    fOk wQuiet initPool
  exact ⟨h.1, h.2.1 rfl (by decide), (h.2.2 rfl).1, (h.2.2 rfl).2⟩

/-- Claim C4 (confirmed): for every payload absent from the all-items map,
`ReturnObject` fails with IllegalStatus("Returned object not currently part
of this pool") and `InvalidateObject` fails with IllegalStatus, unless an
abandoned configuration is set, in which case both return nil and leave
the pool unchanged. -/
theorem c4_unknown_payload (cfg : PoolConfig) (f : Factory) (w : World)
    (st : PoolState) (p : Nat) (h : p ∉ st.allKeys) :
    (cfg.abandonedConfig = none →
      returnObject cfg f w st p =
        (some (.illegalStatus "Returned object not currently part of this pool"), st) ∧
      invalidateObject cfg f w st p =
        (some (.illegalStatus "Invalidated object not currently part of this pool"), st)) ∧
    (∀ ac, cfg.abandonedConfig = some ac →
      returnObject cfg f w st p = (none, st) ∧
      invalidateObject cfg f w st p = (none, st)) := by
  have hg : mapGet st p = none := by
    unfold mapGet
    rw [if_neg h]
  constructor
  · intro hab
    constructor
    · unfold returnObject
      rw [returnObjectAux_absent cfg f w st.closed st p hg, hab]
      rfl
    · unfold invalidateObject
      rw [hg, hab]
      rfl
  · intro ac hab
    constructor
    · unfold returnObject
      rw [returnObjectAux_absent cfg f w st.closed st p hg, hab]
      rfl
    · unfold invalidateObject
      rw [hg, hab]
      rfl

/-- Witness for C4: payload 42 was never part of a fresh pool. -/
theorem c4_witness :
    returnObject cfgStd fOk wQuiet initPool 42 =
      (some (.illegalStatus "Returned object not currently part of this pool"),
       initPool) ∧
    invalidateObject cfgStd fOk wQuiet initPool 42 =
      (some (.illegalStatus "Invalidated object not currently part of this pool"),
       initPool) ∧
    returnObject { cfgStd with abandonedConfig := some ⟨false⟩ } fOk wQuiet
      initPool 42 = (none, initPool) := by
  have h1 := c4_unknown_payload cfgStd fOk wQuiet initPool 42 (by decide)
  have h2 := c4_unknown_payload { cfgStd with abandonedConfig := some ⟨false⟩ }
    fOk wQuiet initPool 42 (by decide)
  exact ⟨(h1.1 rfl).1, (h1.1 rfl).2, (h2.2 ⟨false⟩ rfl).1⟩

/-- Claim C10: on an open pool with a factory, `AddObject` reports success
even when `create` yields no object (MaxTotal reached or MakeObject
failed), leaving the pool unchanged; and a concrete `Prefill` of 2 on a
MaxTotal-1 pool adds only 1 idle object while reporting nothing. -/
theorem c10_addObject_swallows_create_failure (cfg : PoolConfig) (f : Factory)
    (st : PoolState) (hopen : st.closed = false)
    (hcr : (create cfg f st).1 = none) :
    addObject cfg (some f) st = (none, st) ∧
    GetNumIdle (prefill { cfgStd with maxTotal := 1 } (some fOk) 2 initPool) = 1 ∧
    (1 : Nat) < 2 := by
  refine ⟨?_, by decide, by decide⟩
  unfold addObject
  rw [if_neg (by simp [hopen])]
  show (none, addIdleObject cfg (create cfg f st).1 (create cfg f st).2) =
    (none, st)
  rw [hcr, create_none_state cfg f st hcr]
  rfl

/-- Witness for C10: a fresh pool with MaxTotal = 0 cannot create, yet
`AddObject` succeeds and changes nothing. -/
theorem c10_witness :
    initPool.closed = false ∧
    (create { cfgStd with maxTotal := 0 } fOk initPool).1 = none ∧
    addObject { cfgStd with maxTotal := 0 } (some fOk) initPool =
      (none, initPool) := by
  refine ⟨rfl, by decide, ?_⟩
  exact (c10_addObject_swallows_create_failure { cfgStd with maxTotal := 0 }
    fOk initPool rfl (by decide)).1

/-- Claim C5: on a return of an ALLOCATED item, a TestOnReturn validation
failure or a passivation failure destroys the item, runs
`ensureIdle(1, false)`, and reports success (nil) to the caller. -/
theorem c5_return_failures_swallowed (cfg : PoolConfig) (f : Factory)
    (w : World) (st : PoolState) (p : Nat)
    (hg : mapGet st p = some .ALLOCATED) :
    (cfg.testOnReturn = true → f.validateOk p = false →
      returnObject cfg f w st p =
        (none, ensureIdle cfg f w 1 false
          (destroy p (setState p .RETURNING st)))) ∧
    ((cfg.testOnReturn = true → f.validateOk p = true) →
      f.passivateOk p = false →
      returnObject cfg f w st p =
        (none, ensureIdle cfg f w 1 false
          (destroy p (setState p .RETURNING st)))) := by
  constructor
  · intro ht hv
    unfold returnObject
    exact returnObjectAux_validateFail cfg f w st.closed st p hg ht hv
  · intro hnv hp
    unfold returnObject
    exact returnObjectAux_passivateFail cfg f w st.closed st p hg hnv hp

/-- Witness for C5 on a one-item pool: a failing validator under
TestOnReturn, and a failing passivation, both destroy and report nil. -/
theorem c5_witness :
    mapGet stOneAllocated 0 = some .ALLOCATED ∧
    returnObject { cfgStd with testOnReturn := true }
        { fOk with validateOk := fun _ => false } wQuiet stOneAllocated 0 =
      (none, ensureIdle { cfgStd with testOnReturn := true }
        { fOk with validateOk := fun _ => false } wQuiet 1 false
        (destroy 0 (setState 0 .RETURNING stOneAllocated))) ∧
    returnObject cfgStd { fOk with passivateOk := fun _ => false } wQuiet
        stOneAllocated 0 =
      (none, ensureIdle cfgStd { fOk with passivateOk := fun _ => false }
        wQuiet 1 false (destroy 0 (setState 0 .RETURNING stOneAllocated))) := by
  refine ⟨by decide, ?_, ?_⟩
  · exact (c5_return_failures_swallowed { cfgStd with testOnReturn := true }
      { fOk with validateOk := fun _ => false } wQuiet stOneAllocated 0
      (by decide)).1 rfl rfl
  · exact (c5_return_failures_swallowed cfgStd
      { fOk with passivateOk := fun _ => false } wQuiet stOneAllocated 0
      (by decide)).2 (fun hc => absurd hc (by decide)) rfl

/-- Claim C6: once a return has deallocated the item, it is destroyed when
the pool is closed or MaxIdle ≥ 0 is already met by the idle size;
otherwise it is pushed at the front when Lifo and at the back otherwise,
and a concurrently observed close (the second closed-flag read) triggers a
`Clear` of the idle deque. -/
theorem c6_return_placement (cfg : PoolConfig) (f : Factory) (w : World)
    (closed2 : Bool) (st : PoolState) (p : Nat)
    (hg : mapGet st p = some .ALLOCATED)
    (hnv : cfg.testOnReturn = true → f.validateOk p = true)
    (hp : f.passivateOk p = true) :
    (st.closed = true ∨ (cfg.maxIdle > -1 ∧
        cfg.maxIdle ≤ (st.idleObjects.length : Int)) →
      returnObjectAux cfg f w closed2 st p =
        (none, destroy p (setState p .IDLE (setState p .RETURNING st)))) ∧
    (¬ (st.closed = true ∨ (cfg.maxIdle > -1 ∧
        cfg.maxIdle ≤ (st.idleObjects.length : Int))) → closed2 = false →
      returnObjectAux cfg f w closed2 st p =
        (none, pushIdle cfg p (setState p .IDLE (setState p .RETURNING st)))) ∧
    (¬ (st.closed = true ∨ (cfg.maxIdle > -1 ∧
        cfg.maxIdle ≤ (st.idleObjects.length : Int))) → closed2 = true →
      returnObjectAux cfg f w closed2 st p =
        (none, clear (pushIdle cfg p
          (setState p .IDLE (setState p .RETURNING st))))) ∧
    (∀ (q : Nat) (s' : PoolState), (pushIdle cfg q s').idleObjects =
      if cfg.lifo = true then q :: s'.idleObjects
      else s'.idleObjects ++ [q]) := by
  have hd := returnObjectAux_dealloc cfg f w closed2 st p hg hnv hp
  refine ⟨?_, ?_, ?_, ?_⟩
  · intro hcap
    rw [hd, if_pos hcap]
  · intro hcap hc2
    rw [hd, if_neg hcap, if_neg (by simp [hc2])]
  · intro hcap hc2
    rw [hd, if_neg hcap, if_pos hc2]
  · intro q s'
    unfold pushIdle
    split_ifs with hl
    · rfl
    · rfl

/-- Witness for C6 on a one-item pool: the MaxIdle = 0 cap destroys, the
default cap pushes, and an observed concurrent close clears. -/
theorem c6_witness :
    returnObjectAux { cfgStd with maxIdle := 0 } fOk wQuiet false
        stOneAllocated 0 =
      (none, destroy 0 (setState 0 .IDLE (setState 0 .RETURNING stOneAllocated))) ∧
    returnObjectAux cfgStd fOk wQuiet false stOneAllocated 0 =
      (none, pushIdle cfgStd 0
        (setState 0 .IDLE (setState 0 .RETURNING stOneAllocated))) ∧
    returnObjectAux cfgStd fOk wQuiet true stOneAllocated 0 =
      (none, clear (pushIdle cfgStd 0
        (setState 0 .IDLE (setState 0 .RETURNING stOneAllocated)))) := by
  refine ⟨?_, ?_, ?_⟩
  · exact (c6_return_placement { cfgStd with maxIdle := 0 } fOk wQuiet false
      stOneAllocated 0 (by decide) (fun hc => absurd hc (by decide)) rfl).1
      (by decide)
  · exact (c6_return_placement cfgStd fOk wQuiet false stOneAllocated 0
      (by decide) (fun hc => absurd hc (by decide)) rfl).2.1 (by decide) rfl
  · exact (c6_return_placement cfgStd fOk wQuiet true stOneAllocated 0
      (by decide) (fun hc => absurd hc (by decide)) rfl).2.2.1 (by decide) rfl

theorem borrowNilLoop_panicked :
    ∀ (l : List Nat) (st : PoolState), (borrowNilLoop l st).1 = .panicked := by
  intro l
  induction l with
  | nil => intro st; rfl
  | cons p rest ih =>
    intro st
    unfold borrowNilLoop
    cases ha : allocate p { st with idleObjects := rest } with
    | mk b st₁ =>
      cases b with
      | false => exact ih st₁
      | true => rfl

/-- Claim C3 (amended): `borrowObject` fails with
IllegalStatus("Pool not open") and leaves the state unchanged when the
pool is closed — with or without a factory; the missing-factory
precondition is enforced only by `AddObject`; `borrowObject` itself
performs no factory check, and with no factory set every open-pool call
reaches a method call on the nil factory interface and panics instead of
returning an IllegalStatus error. -/
theorem c3_preconditions (cfg : PoolConfig) (f : Factory) (w : World)
    (st : PoolState) (W : Int) (wait : WaitOutcome) :
    (st.closed = true →
      borrowObject cfg f w st W wait =
        (.err (.illegalStatus "Pool not open"), st) ∧
      borrowObjectNilFactory cfg w st =
        (.err (.illegalStatus "Pool not open"), st) ∧
      addObject cfg (some f) st =
        (some (.illegalStatus "Pool not open"), st)) ∧
    (st.closed = false →
      addObject cfg none st =
        (some (.illegalStatus "Cannot add objects without a factory."), st) ∧
      (borrowObjectNilFactory cfg w st).1 = .panicked) := by
  constructor
  · intro hc
    refine ⟨?_, ?_, ?_⟩
    · unfold borrowObject
      rw [if_pos hc]
    · unfold borrowObjectNilFactory
      rw [if_pos hc]
    · unfold addObject
      rw [if_pos hc]
  · intro hc
    constructor
    · unfold addObject
      rw [if_neg (by simp [hc])]
    · unfold borrowObjectNilFactory
      rw [if_neg (by simp [hc])]
      dsimp only
      split_ifs with hreap
      · rfl
      · exact borrowNilLoop_panicked st.idleObjects st

/-- Counterexample for C3 as stated: on an open fresh pool with no factory
set, `borrowObject` panics (nil-interface method call inside `create`)
rather than failing with an IllegalStatus error. -/
theorem c3_counterexample :
    initPool.closed = false ∧
    (borrowObjectNilFactory cfgStd wQuiet initPool).1 = .panicked ∧
    isIllegalStatusResult (borrowObjectNilFactory cfgStd wQuiet initPool).1 =
      false := by
  decide

/-- Witness for C3 (amended) on a closed pool and on an open pool without
a factory. -/
theorem c3_witness :
    borrowObject cfgStd fOk wQuiet (close initPool) (-1) .interrupted =
      (.err (.illegalStatus "Pool not open"), close initPool) ∧
    addObject cfgStd none initPool =
      (some (.illegalStatus "Cannot add objects without a factory."),
       initPool) := by
  constructor
  · exact ((c3_preconditions cfgStd fOk wQuiet (close initPool) (-1)
      .interrupted).1 (by decide)).1
  · exact ((c3_preconditions cfgStd fOk wQuiet initPool (-1)
      .interrupted).2 rfl).1

/-- Claim C2 (amended): with blocking enabled, the idle deque empty, no
abandoned configuration, and creation impossible, a timed wait that ends
by timeout fails with NoSuchElement("Timeout waiting for idle object"),
while a wait that ends by the interruption broadcast by `Close` fails with
the propagated interruption error of the deque, not with NoSuchElement. -/
theorem c2_wait_outcomes (cfg : PoolConfig) (f : Factory) (w : World)
    (st : PoolState) (W : Int) (wait : WaitOutcome)
    (hopen : st.closed = false) (hidle : st.idleObjects = [])
    (hblock : cfg.blockWhenExhausted = true)
    (hab : cfg.abandonedConfig = none)
    (hcr : (create cfg f st).1 = none) :
    (0 ≤ W → wait = .timedOut →
      borrowObject cfg f w st W wait =
        (.err (.noSuchElement "Timeout waiting for idle object"), st)) ∧
    (wait = .interrupted →
      borrowObject cfg f w st W wait = (.err .interrupted, st)) := by
  have hce : create cfg f st = (none, st) := by
    have h2 := create_none_state cfg f st hcr
    cases hc : create cfg f st with
    | mk a b =>
      rw [hc] at hcr h2
      simp only at hcr h2
      rw [hcr, h2]
  have hentry : borrowObject cfg f w st W wait =
      borrowLoop cfg f W wait (st.idleObjects.length + 2) st := by
    unfold borrowObject
    rw [if_neg (by simp [hopen]), hab]
  rw [hentry, hidle]
  have hfuel : ([] : List Nat).length + 2 = Nat.succ (Nat.succ 0) := rfl
  rw [hfuel]
  constructor
  · intro hW hwait
    unfold borrowLoop
    rw [hidle]
    dsimp only
    rw [hce]
    dsimp only
    rw [if_pos hblock, if_neg (by omega : ¬ W < 0), hwait]
  · intro hwait
    unfold borrowLoop
    rw [hidle]
    dsimp only
    rw [hce]
    dsimp only
    rw [if_pos hblock, hwait]
    split_ifs with hW
    · rfl
    · rfl

/-- Counterexample for C2 as stated: an interrupted indefinite wait makes
`borrowObject` fail with the interruption error, which is not the
NoSuchElement timeout error the claim requires. -/
theorem c2_counterexample :
    (borrowObject { cfgStd with maxTotal := 0 } fOk wQuiet initPool (-1)
        .interrupted).1 = .err .interrupted ∧
    (BorrowResult.err PoolErr.interrupted ≠
      BorrowResult.err (.noSuchElement "Timeout waiting for idle object")) := by
  decide

/-- Witness for C2 (amended) on a fresh pool with MaxTotal = 0. -/
theorem c2_witness :
    borrowObject { cfgStd with maxTotal := 0 } fOk wQuiet initPool 50
        .timedOut =
      (.err (.noSuchElement "Timeout waiting for idle object"), initPool) ∧
    borrowObject { cfgStd with maxTotal := 0 } fOk wQuiet initPool (-1)
        .interrupted = (.err .interrupted, initPool) := by
  constructor
  · exact (c2_wait_outcomes { cfgStd with maxTotal := 0 } fOk wQuiet initPool
      50 .timedOut rfl rfl rfl rfl (by decide)).1 (by omega) rfl
  · exact (c2_wait_outcomes { cfgStd with maxTotal := 0 } fOk wQuiet initPool
      (-1) .interrupted rfl rfl rfl rfl (by decide)).2 rfl

theorem lookup_allocRange (k q : Nat) :
    ((List.range k).map (fun i => (i, PState.ALLOCATED))).lookup q =
      if q < k then some PState.ALLOCATED else none := by
  induction k with
  | zero => simp [List.lookup]
  | succ n ih =>
    rw [List.range_succ, List.map_append]
    by_cases hq : q < n
    · rw [list_lookup_append_some _ _ q PState.ALLOCATED (by rw [ih, if_pos hq])]
      rw [if_pos (by omega)]
    · rw [list_lookup_append_none _ _ q (by rw [ih, if_neg hq])]
      by_cases hqn : q = n
      · subst hqn
        simp [List.lookup_cons]
      · have hb : (q == n) = false := beq_eq_false_iff_ne.mpr hqn
        simp only [List.map_cons, List.map_nil, List.lookup_cons, hb]
        rw [if_neg (by omega)]
        rfl

theorem setAlloc_heap (k : Nat) :
    (((List.range k).map (fun i => (i, PState.ALLOCATED)) ++
        [(k, PState.IDLE)]).map
      (fun e => if e.1 = k then (k, PState.ALLOCATED) else e)) =
    (List.range (k + 1)).map (fun i => (i, PState.ALLOCATED)) := by
  rw [List.map_append, List.range_succ, List.map_append, List.map_map]
  congr 1
  · apply List.map_congr_left
    intro i hi
    have hik : i ≠ k := Nat.ne_of_lt (List.mem_range.mp hi)
    simp [Function.comp, hik]
  · simp

theorem c8_borrow_step (cfg : PoolConfig) (f : Factory) (w : World) (k : Nat)
    (htb : cfg.testOnBorrow = false) (htc : cfg.testOnCreate = false)
    (hab : cfg.abandonedConfig = none)
    (hmk : f.makeOk k = true) (hac : f.activateOk k = true)
    (hMT : cfg.maxTotal ≤ -1 ∨ (k : Int) + 1 ≤ cfg.maxTotal)
    (hbound : (k : Int) + 1 < 2147483647) :
    borrowObject cfg f w (c8State k) 0 .timedOut =
      (.ok k, c8State (k + 1)) := by
  have hguard : ¬ ((cfg.maxTotal > -1 ∧ (k : Int) + 1 > cfg.maxTotal) ∨
      (k : Int) + 1 ≥ 2147483647) := by
    rcases hMT with h | h
    · intro hc
      rcases hc with ⟨h1, h2⟩ | h3
      · omega
      · omega
    · intro hc
      rcases hc with ⟨h1, h2⟩ | h3
      · omega
      · omega
  have hcr : create cfg f (c8State k) =
      (some k,
        { closed := false, idleObjects := [],
          allKeys := List.range k ++ [k],
          heap := (List.range k).map (fun i => (i, PState.ALLOCATED)) ++
            [(k, PState.IDLE)],
          createCount := (k : Int) + 1, destroyedCount := 0,
          destroyedByBorrowValidationCount := 0, nextId := k + 1 }) := by
    rw [create_eq]
    rw [show (c8State k).createCount = (k : Int) from rfl,
        show (c8State k).nextId = k from rfl]
    rw [if_neg hguard, if_neg (by simp [hmk])]
    rfl
  have hlook : lookupState
      { closed := false, idleObjects := [],
        allKeys := List.range k ++ [k],
        heap := (List.range k).map (fun i => (i, PState.ALLOCATED)) ++
          [(k, PState.IDLE)],
        createCount := (k : Int) + 1, destroyedCount := 0,
        destroyedByBorrowValidationCount := 0, nextId := k + 1 } k =
      some PState.IDLE := by
    show ((List.range k).map (fun i => (i, PState.ALLOCATED)) ++
      [(k, PState.IDLE)]).lookup k = some PState.IDLE
    rw [list_lookup_append_none _ _ k (by rw [lookup_allocRange, if_neg (by omega)])]
    simp [List.lookup_cons]
  have hfinal : setState k PState.ALLOCATED
      { closed := false, idleObjects := [],
        allKeys := List.range k ++ [k],
        heap := (List.range k).map (fun i => (i, PState.ALLOCATED)) ++
          [(k, PState.IDLE)],
        createCount := (k : Int) + 1, destroyedCount := 0,
        destroyedByBorrowValidationCount := 0, nextId := k + 1 } =
      c8State (k + 1) := by
    unfold setState c8State
    congr 1
    all_goals first
      | rfl
      | exact (List.range_succ k).symm
      | exact setAlloc_heap k
  have hentry : borrowObject cfg f w (c8State k) 0 .timedOut =
      borrowLoop cfg f 0 .timedOut (Nat.succ (Nat.succ 0)) (c8State k) := by
    unfold borrowObject
    rw [if_neg (by simp [c8State]), hab]
    rfl
  rw [hentry]
  unfold borrowLoop
  show (match (c8State k).idleObjects with
    | p :: rest =>
      afterAcquire cfg f false p
        { c8State k with idleObjects := rest }
        (borrowLoop cfg f 0 .timedOut (Nat.succ 0))
    | [] =>
      match create cfg f (c8State k) with
      | (some p, st₁) =>
        afterAcquire cfg f true p st₁ (borrowLoop cfg f 0 .timedOut (Nat.succ 0))
      | (none, st₁) =>
        if cfg.blockWhenExhausted = true then
          if (0 : Int) < 0 then
            match WaitOutcome.timedOut with
            | .interrupted => (BorrowResult.err .interrupted, st₁)
            | .timedOut => (BorrowResult.diverge, st₁)
          else
            match WaitOutcome.timedOut with
            | .interrupted => (BorrowResult.err .interrupted, st₁)
            | .timedOut =>
              (BorrowResult.err (.noSuchElement "Timeout waiting for idle object"), st₁)
        else (BorrowResult.err (.noSuchElement "Pool exhausted"), st₁)) =
    (BorrowResult.ok k, c8State (k + 1))
  rw [show (c8State k).idleObjects = [] from rfl]
  dsimp only
  rw [hcr]
  dsimp only
  unfold afterAcquire
  rw [allocate_of_idle _ _ hlook]
  dsimp only
  rw [if_neg (fun hc => hc hac)]
  rw [if_neg (by simp [htb, htc])]
  rw [hfinal]

theorem c8_borrow_fold (cfg : PoolConfig) (f : Factory) (w : World) (N : Nat)
    (htb : cfg.testOnBorrow = false) (htc : cfg.testOnCreate = false)
    (hab : cfg.abandonedConfig = none)
    (hmk : ∀ n, f.makeOk n = true) (hac : ∀ n, f.activateOk n = true)
    (hMT : cfg.maxTotal ≤ -1 ∨ (N : Int) ≤ cfg.maxTotal)
    (hbound : (N : Int) < 2147483646) :
    ∀ n, n ≤ N → c8BorrowFold cfg f w n = c8State n := by
  intro n
  induction n with
  | zero => intro _; rfl
  | succ m ih =>
    intro hmN
    unfold c8BorrowFold
    rw [List.range_succ, List.foldl_append, List.foldl_cons, List.foldl_nil]
    have hm : c8BorrowFold cfg f w m = c8State m := ih (by omega)
    unfold c8BorrowFold at hm
    rw [hm]
    rw [c8_borrow_step cfg f w m htb htc hab (hmk m) (hac m)
      (by rcases hMT with h | h
          · exact Or.inl h
          · right; omega)
      (by omega)]

theorem pushIdle_closed (cfg : PoolConfig) (p : Nat) (st : PoolState) :
    (pushIdle cfg p st).closed = st.closed := by
  unfold pushIdle
  split_ifs <;> rfl

theorem pushIdle_allKeys (cfg : PoolConfig) (p : Nat) (st : PoolState) :
    (pushIdle cfg p st).allKeys = st.allKeys := by
  unfold pushIdle
  split_ifs <;> rfl

theorem pushIdle_heap (cfg : PoolConfig) (p : Nat) (st : PoolState) :
    (pushIdle cfg p st).heap = st.heap := by
  unfold pushIdle
  split_ifs <;> rfl

theorem pushIdle_length (cfg : PoolConfig) (p : Nat) (st : PoolState) :
    (pushIdle cfg p st).idleObjects.length = st.idleObjects.length + 1 := by
  unfold pushIdle
  split_ifs <;> simp

theorem pushIdle_mem (cfg : PoolConfig) (p q : Nat) (st : PoolState) :
    q ∈ (pushIdle cfg p st).idleObjects ↔ q = p ∨ q ∈ st.idleObjects := by
  unfold pushIdle
  split_ifs <;> simp [or_comm]

theorem capAdd_succ (m : Int) (i r : Nat) :
    capAdd m i (r + 1) =
      if m > -1 ∧ m ≤ (i : Int) then capAdd m i r
      else capAdd m (i + 1) r := rfl

theorem capAdd_formula (m : Int) :
    ∀ (r i : Nat), capAdd m i r =
      if 0 ≤ m then min (i + r) (max i m.toNat) else i + r := by
  intro r
  induction r with
  | zero =>
    intro i
    show i = if 0 ≤ m then min (i + 0) (max i m.toNat) else i + 0
    by_cases h0 : 0 ≤ m
    · rw [if_pos h0]; omega
    · rw [if_neg h0]; omega
  | succ n ih =>
    intro i
    rw [capAdd_succ]
    by_cases h : m > -1 ∧ m ≤ (i : Int)
    · rw [if_pos h, ih i]
      by_cases h0 : 0 ≤ m
      · rw [if_pos h0, if_pos h0]; omega
      · rw [if_neg h0, if_neg h0]; omega
    · rw [if_neg h, ih (i + 1)]
      by_cases h0 : 0 ≤ m
      · rw [if_pos h0, if_pos h0]; omega
      · rw [if_neg h0, if_neg h0]; omega

theorem destroy_eq (p : Nat) (st : PoolState) : destroy p st = doDestroy p st := rfl

theorem c8_return_fold (cfg : PoolConfig) (f : Factory) (w : World)
    (htr : cfg.testOnReturn = false) :
    ∀ (ps : List Nat) (st : PoolState),
      st.closed = false →
      ps.Nodup →
      (∀ p ∈ ps, p ∈ st.allKeys ∧ lookupState st p = some .ALLOCATED ∧
        p ∉ st.idleObjects ∧ f.passivateOk p = true) →
      st.allKeys.length = st.idleObjects.length + ps.length →
      (ps.foldl (fun s i => (returnObject cfg f w s i).2) st).idleObjects.length =
        capAdd cfg.maxIdle st.idleObjects.length ps.length ∧
      (ps.foldl (fun s i => (returnObject cfg f w s i).2) st).allKeys.length =
        capAdd cfg.maxIdle st.idleObjects.length ps.length := by
  intro ps
  induction ps with
  | nil =>
    intro st hcl hnd hprops hbal
    rw [List.foldl_nil]
    constructor
    · rfl
    · show st.allKeys.length = capAdd cfg.maxIdle st.idleObjects.length 0
      show st.allKeys.length = st.idleObjects.length
      simp at hbal
      exact hbal
  | cons p rest ih =>
    intro st hcl hnd hprops hbal
    rw [List.foldl_cons]
    obtain ⟨hmem, hlook, hnotidle, hpass⟩ := hprops p (List.mem_cons_self p rest)
    have hnd' := List.nodup_cons.mp hnd
    have hg : mapGet st p = some .ALLOCATED := by
      unfold mapGet
      rw [if_pos hmem, hlook]
    have hnv : cfg.testOnReturn = true → f.validateOk p = true := by
      intro hc
      rw [htr] at hc
      cases hc
    have hd := returnObjectAux_dealloc cfg f w st.closed st p hg hnv hpass
    have hro : returnObject cfg f w st p = returnObjectAux cfg f w st.closed st p := rfl
    have hlq : ∀ q, q ≠ p →
        lookupState (setState p .IDLE (setState p .RETURNING st)) q =
          lookupState st q := by
      intro q hq
      rw [lookupState_setState_other _ p q _ hq, lookupState_setState_other _ p q _ hq]
    by_cases hcap : cfg.maxIdle > -1 ∧ cfg.maxIdle ≤ (st.idleObjects.length : Int)
    · rw [hro, hd, if_pos (Or.inr hcap)]
      have hlen1 : st.allKeys.length = st.idleObjects.length + (rest.length + 1) := by
        simpa using hbal
      have hrec := ih (destroy p (setState p .IDLE (setState p .RETURNING st)))
        (by rw [destroy_eq, doDestroy_eq]; exact hcl)
        hnd'.2
        (by
          intro q hq
          have hqp : q ≠ p := fun hc => hnd'.1 (hc ▸ hq)
          obtain ⟨hq1, hq2, hq3, hq4⟩ := hprops q (List.mem_cons_of_mem p hq)
          rw [destroy_eq, doDestroy_eq]
          refine ⟨List.mem_erase_of_ne hqp |>.mpr hq1, ?_, ?_, hq4⟩
          · show lookupState (setState p PState.INVALID
              (setState p .IDLE (setState p .RETURNING st))) q = some PState.ALLOCATED
            rw [lookupState_setState_other _ p q _ hqp, hlq q hqp]
            exact hq2
          · show q ∉ (setState p .IDLE (setState p .RETURNING st)).idleObjects.erase p
            rw [setState_idle, setState_idle]
            intro hc
            exact hq3 (List.mem_of_mem_erase hc)
        )
        (by
          rw [destroy_eq, doDestroy_eq]
          show (st.allKeys.erase p).length =
            ((setState p .IDLE (setState p .RETURNING st)).idleObjects.erase p).length +
              rest.length
          rw [setState_idle, setState_idle, List.erase_of_not_mem hnotidle,
            List.length_erase_of_mem hmem]
          have hpos : 0 < st.allKeys.length := List.length_pos.mpr (List.ne_nil_of_mem hmem)
          omega
        )
      have hidle_eq : (destroy p (setState p .IDLE
          (setState p .RETURNING st))).idleObjects = st.idleObjects := by
        rw [destroy_eq, doDestroy_eq]
        show (setState p .IDLE (setState p .RETURNING st)).idleObjects.erase p = _
        rw [setState_idle, setState_idle, List.erase_of_not_mem hnotidle]
      rw [hidle_eq] at hrec
      rw [List.length_cons, capAdd_succ, if_pos hcap]
      exact hrec
    · have hcond : ¬ (st.closed = true ∨ (cfg.maxIdle > -1 ∧
          cfg.maxIdle ≤ (st.idleObjects.length : Int))) := by
        intro hc
        rcases hc with hc | hc
        · rw [hcl] at hc; cases hc
        · exact hcap hc
      rw [hro, hd, if_neg hcond, if_neg (by rw [hcl]; exact Bool.false_ne_true)]
      have hrec := ih (pushIdle cfg p (setState p .IDLE (setState p .RETURNING st)))
        (by rw [pushIdle_closed]; exact hcl)
        hnd'.2
        (by
          intro q hq
          have hqp : q ≠ p := fun hc => hnd'.1 (hc ▸ hq)
          obtain ⟨hq1, hq2, hq3, hq4⟩ := hprops q (List.mem_cons_of_mem p hq)
          refine ⟨?_, ?_, ?_, hq4⟩
          · rw [pushIdle_allKeys]
            exact hq1
          · show (pushIdle cfg p (setState p .IDLE (setState p .RETURNING st))).heap.lookup q =
              some PState.ALLOCATED
            rw [pushIdle_heap]
            exact (hlq q hqp).trans hq2
          · rw [pushIdle_mem]
            intro hc
            rcases hc with hc | hc
            · exact hqp hc
            · rw [setState_idle, setState_idle] at hc
              exact hq3 hc
        )
        (by
          rw [pushIdle_allKeys, pushIdle_length, setState_idle, setState_idle]
          show st.allKeys.length = st.idleObjects.length + 1 + rest.length
          simp at hbal
          omega
        )
      rw [pushIdle_length, setState_idle, setState_idle] at hrec
      rw [List.length_cons, capAdd_succ, if_neg hcap]
      exact hrec

/-- Claim C8 (amended): for every N below the int32 create sentinel,
starting from an empty open pool with all validation flags off, no evictor
and no abandoned configuration, with MaxTotal unbounded or at least N, and
with a factory whose make, activate and passivate always succeed, the N
borrows succeed with payloads 0..N-1 and the N returns of those payloads
leave num_idle = min(N, MaxIdle) (N when MaxIdle is negative) and
num_active = 0. -/
theorem c8_roundtrip (cfg : PoolConfig) (f : Factory) (w : World) (N : Nat)
    (htb : cfg.testOnBorrow = false) (htc : cfg.testOnCreate = false)
    (htr : cfg.testOnReturn = false)
    (hab : cfg.abandonedConfig = none)
    (hmk : ∀ n, f.makeOk n = true) (hac : ∀ n, f.activateOk n = true)
    (hpa : ∀ n, f.passivateOk n = true)
    (hMT : cfg.maxTotal ≤ -1 ∨ (N : Int) ≤ cfg.maxTotal)
    (hbound : (N : Int) < 2147483646) :
    (∀ k, k < N →
      (borrowObject cfg f w (c8BorrowFold cfg f w k) 0 .timedOut).1 = .ok k) ∧
    GetNumIdle (c8run cfg f w N) =
      (if 0 ≤ cfg.maxIdle then min N cfg.maxIdle.toNat else N) ∧
    GetNumActive (c8run cfg f w N) = 0 := by
  have hfold := c8_borrow_fold cfg f w N htb htc hab hmk hac hMT hbound
  constructor
  · intro k hk
    rw [hfold k (le_of_lt hk)]
    rw [c8_borrow_step cfg f w k htb htc hab (hmk k) (hac k)
      (by rcases hMT with h | h
          · exact Or.inl h
          · right; omega)
      (by omega)]
  · have hstart := hfold N le_rfl
    have hprops : ∀ p ∈ List.range N,
        p ∈ (c8State N).allKeys ∧
        lookupState (c8State N) p = some .ALLOCATED ∧
        p ∉ (c8State N).idleObjects ∧ f.passivateOk p = true := by
      intro p hp
      have hpN := List.mem_range.mp hp
      refine ⟨hp, ?_, by simp [c8State], hpa p⟩
      show ((List.range N).map (fun i => (i, PState.ALLOCATED))).lookup p =
        some PState.ALLOCATED
      rw [lookup_allocRange, if_pos hpN]
    have hret := c8_return_fold cfg f w htr (List.range N) (c8State N) rfl
      (List.nodup_range N) hprops (by simp [c8State])
    have hrun : c8run cfg f w N =
        (List.range N).foldl (fun s i => (returnObject cfg f w s i).2)
          (c8State N) := by
      unfold c8run
      rw [hstart]
    constructor
    · show (c8run cfg f w N).idleObjects.length = _
      rw [hrun]
      have h1 := hret.1
      rw [show (c8State N).idleObjects.length = 0 from rfl,
        show (List.range N).length = N from List.length_range N] at h1
      rw [h1, capAdd_formula]
      by_cases h0 : 0 ≤ cfg.maxIdle
      · rw [if_pos h0, if_pos h0]
        omega
      · rw [if_neg h0, if_neg h0]
        omega
    · show ((c8run cfg f w N).allKeys.length : Int) -
        ((c8run cfg f w N).idleObjects.length : Int) = 0
      rw [hrun]
      have h1 := hret.1
      have h2 := hret.2
      rw [h1, h2]
      omega

/-- Counterexample for C8 as stated: with a factory whose passivate fails,
a single borrow and its (successfully reported) return leave num_idle = 0,
not min(1, MaxIdle) = 1, because the passivate failure silently destroys
the item. -/
theorem c8_counterexample :
    (borrowObject
        { cfgStd with maxTotal := -1, maxIdle := -1, blockWhenExhausted := false }
        { fOk with passivateOk := fun _ => false } wQuiet initPool 0
        .timedOut).1 = .ok 0 ∧
    (returnObject
        { cfgStd with maxTotal := -1, maxIdle := -1, blockWhenExhausted := false }
        { fOk with passivateOk := fun _ => false } wQuiet
        (c8BorrowFold
          { cfgStd with maxTotal := -1, maxIdle := -1, blockWhenExhausted := false }
          { fOk with passivateOk := fun _ => false } wQuiet 1) 0).1 = none ∧
    GetNumIdle (c8run
      { cfgStd with maxTotal := -1, maxIdle := -1, blockWhenExhausted := false }
      { fOk with passivateOk := fun _ => false } wQuiet 1) = 0 ∧
    (0 : Nat) ≠ min 1 1 := by
  refine ⟨by decide, by decide, by decide, by decide⟩

/-- Witness for C8 (amended) at N = 3 with MaxIdle = 2. -/
theorem c8_witness :
    GetNumIdle (c8run { cfgStd with maxTotal := -1, maxIdle := 2 } fOk wQuiet 3) =
      min 3 ((2 : Int)).toNat ∧
    GetNumActive (c8run { cfgStd with maxTotal := -1, maxIdle := 2 } fOk wQuiet 3) = 0 := by
  have h := c8_roundtrip { cfgStd with maxTotal := -1, maxIdle := 2 } fOk wQuiet 3
    rfl rfl rfl rfl (fun _ => rfl) (fun _ => rfl) (fun _ => rfl)
    (Or.inl (by decide)) (by decide)
  refine ⟨?_, h.2.2⟩
  have h1 := h.2.1
  rw [if_pos (by decide : (0 : Int) ≤ (2 : Int))] at h1
  exact h1

end CommonsPool
